import Mathlib

/-!
Verification of the `/document/v1/` feed client (`client/go/internal/vespa/document/http.go`).

A shallow embedding of the Go feed client: Go strings and byte slices are lists of bytes,
`time.Duration` and the `int32`/`int64` counters are integers with explicit two's-complement
wrap-around, a panic is the `none` result, and the collaborators that live outside the file
(the JSON decoder, the gzip encoder, request validation, the transports) are fields of `Lib`.
-/

set_option autoImplicit false
set_option maxRecDepth 100000

namespace document

/-! ## Machine integers and durations -/

/-- Two's-complement wrap of an integer into the range of a Go `int64`. -/
def wrapInt64 (x : Int) : Int := (x + 2 ^ 63) % 2 ^ 64 - 2 ^ 63

/-- Two's-complement wrap of an integer into the range of a Go `int32`. -/
def wrapInt32 (x : Int) : Int := (x + 2 ^ 31) % 2 ^ 32 - 2 ^ 31

/-- The Go constant `math.MaxInt64`. -/
def MaxInt64 : Int := 2 ^ 63 - 1

/-- The Go constant `time.Millisecond`: a `time.Duration` counts nanoseconds. -/
def Millisecond : Int := 1000000

/-- The Go constant `time.Second`. -/
def Second : Int := 1000 * Millisecond

/-! ## Data model -/

/-- A Go `byte`. -/
abbrev Byte := Fin 256

/-- A Go `string` or `[]byte`: a sequence of bytes. -/
abbrev GoString := List Byte

/-- Bytes of an ASCII literal of the source. -/
def lit (s : String) : GoString := s.toList.map (fun ch => Fin.ofNat ch.toNat)

/-- A Go `error` value: an error raised by a collaborator, one created by `fmt.Errorf` from a
message, or one wrapped by `fmt.Errorf`. -/
inductive GoError where
  | external (code : Nat)
  | errorf (msg : String)
  | wrapped (msg : String) (inner : GoError)
  deriving DecidableEq, Repr

/-- The `Compression` type of the source is an `int`. -/
abbrev Compression := Int

def CompressionAuto : Compression := 0
def CompressionNone : Compression := 1
def CompressionGzip : Compression := 2

/-- The configuration options of a feed client (`NowFunc` is the clock passed to `Send`). -/
structure ClientOptions where
  BaseURL : GoString
  Timeout : Int
  Route : GoString
  TraceLevel : Int
  Compression : Compression
  deriving DecidableEq, Repr

/-- A pool entry: the wrapped transport, named by a number, and its inflight counter. -/
structure countingHTTPClient where
  client : Nat
  inflight : Int
  deriving DecidableEq, Repr

/-- The part of a `url.URL` the client touches: the components parsed from the base URL, kept
as given, and the two fields `feedURL` overwrites. -/
structure URL where
  base : GoString
  Path : GoString
  RawQuery : GoString
  deriving DecidableEq, Repr

/-- The feed client: options, the pool of counting transports and the rotation counter. -/
structure Client where
  baseURL : URL
  options : ClientOptions
  httpClients : List countingHTTPClient
  sendCount : Int
  deriving DecidableEq, Repr

/-- Modelled from the spec: the `Id` type, declared outside `src/` ("namespace, document type,
optional numeric shard key, optional group key, user-specific key"); the numeric key is the
`*int64` that `urlPath` dereferences, and `Type_` is the field `Type`. -/
structure Id where
  Type_ : GoString
  Namespace : GoString
  Number : Option Int
  Group : GoString
  UserSpecific : GoString
  deriving DecidableEq, Repr

/-- Modelled from the spec: the `Operation` enumeration, declared outside `src/`. -/
inductive Operation where
  | OperationPut
  | OperationUpdate
  | OperationRemove
  deriving DecidableEq, Repr

/-- Modelled from the spec: the `Document` type, declared outside `src/`. -/
structure Document where
  Id : Id
  Operation : Operation
  Condition : GoString
  Create : Bool
  Body : GoString
  deriving DecidableEq, Repr

/-- Modelled from the spec: the `Status` enumeration, declared outside `src/`, with the four
terminal states the source assigns; the zero value of a fresh `Result` is the first one. -/
inductive Status where
  | StatusSuccess
  | StatusConditionNotMet
  | StatusVespaFailure
  | StatusTransportFailure
  deriving DecidableEq, Repr

/-- Modelled from the spec: the `Stats` type, declared outside `src/`; `ResponsesByCode` is the
Go map from status code to count, kept as an association list. -/
structure Stats where
  Requests : Int
  Responses : Int
  ResponsesByCode : List (Int × Int)
  Errors : Int
  TotalLatency : Int
  MinLatency : Int
  MaxLatency : Int
  BytesSent : Int
  BytesRecv : Int
  deriving DecidableEq, Repr

/-- Modelled from the spec: the `Result` type, declared outside `src/`. -/
structure Result where
  Id : Id
  Status : Status
  HTTPStatus : Int
  Message : GoString
  Trace : GoString
  Err : Option GoError
  Stats : Stats
  deriving DecidableEq, Repr

/-- The body of an `http.Response` as `io.ReadAll` sees it: the bytes delivered, and the error
(other than end of file) that ended the read, if any. -/
structure ResponseBody where
  data : GoString
  readErr : Option GoError
  deriving DecidableEq, Repr

/-- The part of an `http.Response` the client reads. -/
structure Response where
  StatusCode : Int
  Body : ResponseBody
  deriving DecidableEq, Repr

/-- The part of an `http.Request` the client builds. -/
structure Request where
  method : String
  url : GoString
  body : GoString
  header : List (String × String)
  deriving DecidableEq, Repr

/-- The anonymous struct `resultWithResponse` decodes the response body into. -/
structure JsonBody where
  Message : GoString
  Trace : GoString
  deriving DecidableEq, Repr

/-- The collaborators declared outside the file: `json.Unmarshal` into the body struct (the
struct as left by the decoder, and the decode error if any), `Result.Success`, the gzip encoder
(`Write` followed by `Close`), the validation done by `http.NewRequest`, the call of a
transport (named by its number) with a request and a deadline, `url.Parse`, `URL.String` and
`url.Values.Encode`. -/
structure Lib where
  jsonUnmarshal : GoString → JsonBody × Option GoError
  success : Result → Bool
  gzip : GoString → Except GoError GoString
  newRequestErr : String → GoString → Option GoError
  transport : Nat → Request → Int → Except GoError Response
  urlParse : GoString → Except GoError URL
  urlString : URL → GoString
  valuesEncode : List (GoString × GoString) → GoString

/-! ## Construction -/

/-- The function `NewClient`: `httpClients` names the transports supplied, and the result is
the client or the error returned. -/
def NewClient (lib : Lib) (options : ClientOptions) (httpClients : List Nat) :
    Except GoError Client :=
  if httpClients.length < 1 then
    Except.error (GoError.errorf "need at least one HTTP client")
  else
    match lib.urlParse options.BaseURL with
    | Except.error err => Except.error (GoError.wrapped "invalid base url: " err)
    | Except.ok u =>
      let countingClients : List countingHTTPClient :=
        httpClients.foldl (fun acc client => acc ++ [{ client := client, inflight := 0 }]) []
      Except.ok
        { baseURL := u, options := options, httpClients := countingClients, sendCount := 0 }

/-! ## Timeout policy -/

/-- The method `Client.clientTimeout`. -/
def clientTimeout (c : Client) : Int :=
  if c.options.Timeout < 1 then
    190 * Second
  else
    wrapInt64 (Int.tdiv (wrapInt64 (c.options.Timeout * 11)) 10 + 1000)

/-! ## Result construction -/

/-- The function `resultWithErr`. -/
def resultWithErr (result : Result) (err : GoError) : Result :=
  { result with
    Stats := { result.Stats with Errors := wrapInt64 (result.Stats.Errors + 1) }
    Status := Status.StatusTransportFailure
    Err := some err }

/-- The status switch at the head of `resultWithResponse`. -/
def statusOfCode (code : Int) : Status :=
  if code = 200 then Status.StatusSuccess
  else if code = 412 then Status.StatusConditionNotMet
  else if code = 502 ∨ code = 504 ∨ code = 507 then Status.StatusVespaFailure
  else Status.StatusTransportFailure

/-- The function `resultWithResponse`. -/
def resultWithResponse (lib : Lib) (resp : Response) (result : Result) (document : Document)
    (elapsed : Int) : Result :=
  let result := { result with HTTPStatus := resp.StatusCode }
  let result := { result with
    Stats := { result.Stats with Responses := wrapInt64 (result.Stats.Responses + 1) } }
  let result := { result with
    Stats := { result.Stats with ResponsesByCode := [(resp.StatusCode, 1)] } }
  let result := { result with Status := statusOfCode resp.StatusCode }
  let b := resp.Body.data
  let decoded : JsonBody × Option GoError :=
    match resp.Body.readErr with
    | some _ => (⟨[], []⟩, none)
    | none => lib.jsonUnmarshal b
  let result :=
    match resp.Body.readErr with
    | some err => { result with Status := Status.StatusVespaFailure, Err := some err }
    | none =>
      match decoded.2 with
      | some err =>
        { result with
          Status := Status.StatusVespaFailure
          Err := some (GoError.wrapped "failed to decode json response: " err) }
      | none => result
  let result := { result with Message := decoded.1.Message }
  let result := { result with Trace := decoded.1.Trace }
  let result := { result with
    Stats := { result.Stats with BytesSent := (document.Body.length : Int) } }
  let result := { result with Stats := { result.Stats with BytesRecv := (b.length : Int) } }
  let result :=
    if lib.success result then result
    else { result with Stats := { result.Stats with Errors := wrapInt64 (result.Stats.Errors + 1) } }
  let result := { result with Stats := { result.Stats with TotalLatency := elapsed } }
  let result := { result with Stats := { result.Stats with MinLatency := elapsed } }
  let result := { result with Stats := { result.Stats with MaxLatency := elapsed } }
  result

/-! ## Request builder -/

/-- The table `upperhex` of `net/url`. -/
def upperhex : GoString := lit "0123456789ABCDEF"

/-- The function `shouldEscape` of `net/url` in the mode `encodePathSegment`, which is the mode
`url.PathEscape` uses: letters, digits and `-_.~` are kept, of the reserved characters
`$&+,/:;=?@` only `/ ; , ?` are escaped, and every other byte is escaped. -/
def shouldEscape (c : Byte) : Bool :=
  let n := c.val
  if (97 ≤ n ∧ n ≤ 122) ∨ (65 ≤ n ∧ n ≤ 90) ∨ (48 ≤ n ∧ n ≤ 57) then false
  else if n = 45 ∨ n = 95 ∨ n = 46 ∨ n = 126 then false
  else if n = 36 ∨ n = 38 ∨ n = 43 ∨ n = 44 ∨ n = 47 ∨ n = 58 ∨ n = 59 ∨ n = 61 ∨ n = 63
      ∨ n = 64 then
    decide (n = 47 ∨ n = 59 ∨ n = 44 ∨ n = 63)
  else true

/-- One step of `escape` of `net/url`: an escaped byte becomes `%` and two upper-case hex
digits, `upperhex[c>>4]` and `upperhex[c&15]`. -/
def escapeByte (c : Byte) : GoString :=
  if shouldEscape c then
    [37, upperhex.getD (c.val / 16) 0, upperhex.getD (c.val % 16) 0]
  else [c]

/-- The function `url.PathEscape`. -/
def PathEscape (s : GoString) : GoString := s.flatMap escapeByte

/-- The decimal digits of `n`, least significant first, as `formatBits` of `strconv` produces
them (it fills its buffer from the right); `fuel` bounds the number of digits. -/
def revDigits : Nat → Nat → List Nat
  | 0, _ => []
  | fuel + 1, n => if n < 10 then [n] else (n % 10) :: revDigits fuel (n / 10)

/-- The function `strconv.FormatUint(n, 10)` on a `uint64`, which has at most 20 digits. -/
def FormatUint (n : Nat) : GoString :=
  (revDigits 20 n).reverse.map (fun d => Fin.ofNat (48 + d))

/-- The functions `strconv.FormatInt(n, 10)` and `strconv.Itoa` on a signed 64-bit integer. -/
def FormatInt (n : Int) : GoString :=
  if n < 0 then 45 :: FormatUint (-n).toNat else FormatUint n.toNat

/-- The function `urlPath`. -/
def urlPath (id : Id) : GoString :=
  let sb : GoString := []
  let sb := sb ++ lit "/document/v1/"
  let sb := sb ++ PathEscape id.Namespace
  let sb := sb ++ lit "/"
  let sb := sb ++ PathEscape id.Type_
  let sb :=
    match id.Number with
    | some number =>
      let sb := sb ++ lit "/number/"
      let n := (number % 2 ^ 64).toNat
      sb ++ FormatUint n
    | none =>
      if id.Group ≠ [] then
        let sb := sb ++ lit "/group/"
        sb ++ PathEscape id.Group
      else
        sb ++ lit "/docid"
  let sb := sb ++ lit "/"
  let sb := sb ++ PathEscape id.UserSpecific
  sb

/-- The method `Set` of `url.Values`: the values of the key are replaced by the one given. -/
def valuesSet (params : List (GoString × GoString)) (key value : GoString) :
    List (GoString × GoString) :=
  params.filter (fun p => p.1 ≠ key) ++ [(key, value)]

/-- The value stored under a key of a `url.Values`, with `none` for an absent key. -/
def valuesGet (params : List (GoString × GoString)) (key : GoString) : Option GoString :=
  (params.find? (fun p => p.1 = key)).map Prod.snd

/-- The method `Client.queryParams`. -/
def queryParams (c : Client) : List (GoString × GoString) :=
  let params : List (GoString × GoString) := []
  let params :=
    if c.options.Timeout > 0 then
      valuesSet params (lit "timeout")
        (FormatInt (Int.tdiv c.options.Timeout Millisecond) ++ lit "ms")
    else params
  let params :=
    if c.options.Route ≠ [] then valuesSet params (lit "route") c.options.Route else params
  let params :=
    if c.options.TraceLevel > 0 then
      valuesSet params (lit "tracelevel") (FormatInt c.options.TraceLevel)
    else params
  params

/-- The method `Client.feedURL`. -/
def feedURL (lib : Lib) (c : Client) (d : Document) (queryParams : List (GoString × GoString)) :
    String × URL :=
  let httpMethod :=
    match d.Operation with
    | Operation.OperationPut => "POST"
    | Operation.OperationUpdate => "PUT"
    | Operation.OperationRemove => "DELETE"
  let queryParams :=
    if d.Condition ≠ [] then valuesSet queryParams (lit "condition") d.Condition
    else queryParams
  let queryParams :=
    if d.Create then valuesSet queryParams (lit "create") (lit "true") else queryParams
  let u := c.baseURL
  let u := { u with Path := urlPath d.Id }
  let u := { u with RawQuery := lib.valuesEncode queryParams }
  (httpMethod, u)

/-! ## Load balancer -/

/-- The method `countingHTTPClient.addInflight`: an atomic add on the `int64` counter. -/
def countingHTTPClient.addInflight (c : countingHTTPClient) (n : Int) : countingHTTPClient :=
  { c with inflight := wrapInt64 (c.inflight + n) }

/-- The method `countingHTTPClient.Do`: the call of the wrapped transport, and the receiver
after the deferred `addInflight(-1)`. -/
def countingHTTPClient.Do (c : countingHTTPClient) (lib : Lib) (req : Request) (timeout : Int) :
    countingHTTPClient × Except GoError Response :=
  (c.addInflight (-1), lib.transport c.client req timeout)

/-- The loop of `leastBusyClient` over the indices `i` still to visit: `client` is a copy of
the pool entry at `(i + start) % len`, Go's `%` truncates towards zero, and an index outside
the pool panics (`none`). -/
def leastBusyScan (pool : List countingHTTPClient) (start : Int) :
    List Nat → countingHTTPClient → Int → Option countingHTTPClient
  | [], leastBusy, _ => some leastBusy
  | i :: rest, leastBusy, min =>
    let j := Int.tmod ((i : Int) + start) (pool.length : Int)
    if j < 0 then none
    else
      match pool[j.toNat]? with
      | none => none
      | some client =>
        let inflight := client.inflight
        if inflight < min then leastBusyScan pool start rest client inflight
        else leastBusyScan pool start rest leastBusy min

/-- The method `Client.leastBusyClient`: the client after the call, and the value the returned
pointer refers to, which is the local variable `leastBusy` (a copy of a pool entry, the pool
being a slice of struct values) after `addInflight(1)`; `none` is a panic. -/
def leastBusyClient (c : Client) : Client × Option countingHTTPClient :=
  match c.httpClients[0]? with
  | none => (c, none)
  | some first =>
    let leastBusy := first
    let min := MaxInt64
    let next := wrapInt32 (c.sendCount + 1)
    let c := { c with sendCount := next }
    let start := Int.tmod next (c.httpClients.length : Int)
    match leastBusyScan c.httpClients start (List.range c.httpClients.length) leastBusy min with
    | none => (c, none)
    | some leastBusy => (c, some (leastBusy.addInflight 1))

/-! ## Compressor -/

/-- The local `useGzip` of `createRequest`. -/
def useGzip (c : Client) (body : GoString) : Bool :=
  c.options.Compression == CompressionGzip
    || (c.options.Compression == CompressionAuto && decide (body.length > 512))

/-- The method `Set` of `http.Header`, on keys that are already canonical. -/
def headerSet (h : List (String × String)) (key value : String) : List (String × String) :=
  h.filter (fun p => p.1 ≠ key) ++ [(key, value)]

/-- The method `Get` of `http.Header`, with `none` for an absent key. -/
def headerGet (h : List (String × String)) (key : String) : Option String :=
  (h.find? (fun p => p.1 = key)).map Prod.snd

/-- The method `Client.createRequest`. -/
def createRequest (lib : Lib) (c : Client) (method : String) (url : GoString)
    (body : GoString) : Except GoError Request :=
  let useGzip := useGzip c body
  let r : Except GoError GoString := if useGzip then lib.gzip body else Except.ok body
  match r with
  | Except.error err => Except.error err
  | Except.ok r =>
    match lib.newRequestErr method url with
    | some err => Except.error err
    | none =>
      let req : Request := { method := method, url := url, body := r, header := [] }
      let req :=
        if useGzip then { req with header := headerSet req.header "Content-Encoding" "gzip" }
        else req
      let req :=
        { req with header := headerSet req.header "Content-Type" "application/json; charset=utf-8" }
      Except.ok req

/-! ## Orchestrator -/

/-- The method `time.Time.Sub` on instants counted in nanoseconds: the difference, saturated to
the range of a `time.Duration`. -/
def timeSub (t u : Int) : Int := max (-(2 ^ 63)) (min MaxInt64 (t - u))

/-- The method `Client.Send`: `start` and `stop` are the two readings of the injected clock,
and the result is the client after the call with the `Result` returned, or `none` for a
panic. -/
def Send (lib : Lib) (c : Client) (start stop : Int) (document : Document) :
    Client × Option Result :=
  let result : Result :=
    { Id := document.Id, Status := Status.StatusSuccess, HTTPStatus := 0, Message := [],
      Trace := [], Err := none,
      Stats := { Requests := 1, Responses := 0, ResponsesByCode := [], Errors := 0,
                 TotalLatency := 0, MinLatency := 0, MaxLatency := 0, BytesSent := 0,
                 BytesRecv := 0 } }
  let mu := feedURL lib c document (queryParams c)
  match createRequest lib c mu.1 (lib.urlString mu.2) document.Body with
  | Except.error err => (c, some (resultWithErr result err))
  | Except.ok req =>
    match leastBusyClient c with
    | (c, none) => (c, none)
    | (c, some leastBusy) =>
      match (leastBusy.Do lib req (clientTimeout c)).2 with
      | Except.error err => (c, some (resultWithErr result err))
      | Except.ok resp =>
        let elapsed := timeSub stop start
        (c, some (resultWithResponse lib resp result document elapsed))

/-- A run of `Send` calls, each completed before the next one starts: the client after the
run and the results in call order. -/
def SendAll (lib : Lib) : Client → List (Int × Int × Document) → Client × List (Option Result)
  | c, [] => (c, [])
  | c, (start, stop, document) :: rest =>
    let r := Send lib c start stop document
    let rs := SendAll lib r.1 rest
    (rs.1, r.2 :: rs.2)

/-- The transports chosen by `k` consecutive calls of `leastBusyClient`, each call completed
(its `Do` returned) before the next one starts; `none` marks a call that panicked. -/
def selectRun : Nat → Client → List (Option Nat)
  | 0, _ => []
  | k + 1, c =>
    (leastBusyClient c).2.map countingHTTPClient.client :: selectRun k (leastBusyClient c).1

/-- The client after `k` consecutive calls of `leastBusyClient`. -/
def afterRun : Nat → Client → Client
  | 0, c => c
  | k + 1, c => afterRun k (leastBusyClient c).1

/-- Modelled from the spec: the method `Result.Success`, declared outside `src/`; the spec
has `Errors` "incremented by 1 if the final status is not Success", so a result is a success
exactly when its status is Success. -/
def specSuccess (r : Result) : Bool := decide (r.Status = Status.StatusSuccess)

/-! ## Sample collaborators and inputs -/

/-- A library for concrete runs: only `{}` decodes, a result succeeds when its status is
`StatusSuccess`, gzip prefixes the magic bytes, every request is valid and every transport
answers 200 with the body `{}`. -/
def sampleLib : Lib where
  jsonUnmarshal := fun b =>
    if b = lit "{}" then (⟨[], []⟩, none) else (⟨[], []⟩, some (GoError.external 1))
  success := fun r => decide (r.Status = Status.StatusSuccess)
  gzip := fun b => Except.ok ([31, 139] ++ b)
  newRequestErr := fun _ _ => none
  transport := fun _ _ _ => Except.ok ⟨200, ⟨lit "{}", none⟩⟩
  urlParse := fun s => Except.ok ⟨s, [], []⟩
  urlString := fun u => u.base ++ u.Path ++ lit "?" ++ u.RawQuery
  valuesEncode := fun vs => (vs.map (fun p => p.1 ++ lit "=" ++ p.2 ++ lit "&")).flatten

/-- The sample library with every transport failing to connect. -/
def sampleLibDown : Lib :=
  { sampleLib with transport := fun _ _ _ => Except.error (GoError.external 7) }

/-- A client with the given timeout, compression mode, pool and rotation counter. -/
def sampleClient (timeout : Int) (compression : Compression) (pool : List countingHTTPClient)
    (sendCount : Int) : Client :=
  { baseURL := ⟨lit "http://h:8080", [], []⟩
    options := ⟨lit "http://h:8080", timeout, [], 0, compression⟩
    httpClients := pool
    sendCount := sendCount }

/-- A document `id:n1:t1::d1` with the given body. -/
def sampleDocument (body : GoString) : Document :=
  { Id := ⟨lit "t1", lit "n1", none, [], lit "d1"⟩
    Operation := Operation.OperationPut
    Condition := []
    Create := false
    Body := body }

/-- The `Result` that `Send` starts from. -/
def sampleResult : Result :=
  { Id := (sampleDocument []).Id, Status := Status.StatusSuccess, HTTPStatus := 0, Message := [],
    Trace := [], Err := none,
    Stats := { Requests := 1, Responses := 0, ResponsesByCode := [], Errors := 0,
               TotalLatency := 0, MinLatency := 0, MaxLatency := 0, BytesSent := 0,
               BytesRecv := 0 } }

/-! ## Response parser: status classification -/

/-- C1: when the response body is read without error and decodes without error,
`resultWithResponse` sets `HTTPStatus` to the status code and `Status` from the code alone:
200 gives Success, 412 ConditionNotMet, 502, 504 and 507 VespaFailure, and every other code
TransportFailure. -/
theorem C1_status_from_code (lib : Lib) (resp : Response) (result : Result)
    (document : Document) (elapsed : Int)
    (hread : resp.Body.readErr = none)
    (hdec : (lib.jsonUnmarshal resp.Body.data).2 = none) :
    (resultWithResponse lib resp result document elapsed).HTTPStatus = resp.StatusCode ∧
    (resp.StatusCode = 200 →
      (resultWithResponse lib resp result document elapsed).Status = Status.StatusSuccess) ∧
    (resp.StatusCode = 412 →
      (resultWithResponse lib resp result document elapsed).Status
        = Status.StatusConditionNotMet) ∧
    (resp.StatusCode = 502 ∨ resp.StatusCode = 504 ∨ resp.StatusCode = 507 →
      (resultWithResponse lib resp result document elapsed).Status
        = Status.StatusVespaFailure) ∧
    (resp.StatusCode ≠ 200 → resp.StatusCode ≠ 412 → resp.StatusCode ≠ 502 →
      resp.StatusCode ≠ 504 → resp.StatusCode ≠ 507 →
      (resultWithResponse lib resp result document elapsed).Status
        = Status.StatusTransportFailure) := by
  have hst : (resultWithResponse lib resp result document elapsed).Status
      = statusOfCode resp.StatusCode := by
    simp only [resultWithResponse, hread, hdec]
    split <;> rfl
  have hcode : (resultWithResponse lib resp result document elapsed).HTTPStatus
      = resp.StatusCode := by
    simp only [resultWithResponse, hread, hdec]
    split <;> rfl
  refine ⟨hcode, ?_, ?_, ?_, ?_⟩
  · intro h
    rw [hst, h]
    rfl
  · intro h
    rw [hst, h]
    rfl
  · intro h
    rw [hst]
    rcases h with h | h | h <;> rw [h] <;> rfl
  · intro h1 h2 h3 h4 h5
    rw [hst]
    simp [statusOfCode, h1, h2, h3, h4, h5]

/-- Witness of C1: a 404 response with the body `{}` is a TransportFailure. -/
theorem C1_status_from_code_witness :
    (resultWithResponse sampleLib ⟨404, ⟨lit "{}", none⟩⟩ sampleResult (sampleDocument [])
      5).HTTPStatus = 404 ∧
    (resultWithResponse sampleLib ⟨404, ⟨lit "{}", none⟩⟩ sampleResult (sampleDocument [])
      5).Status = Status.StatusTransportFailure :=
  have h := C1_status_from_code sampleLib ⟨404, ⟨lit "{}", none⟩⟩ sampleResult
    (sampleDocument []) 5 rfl (by decide)
  ⟨h.1, h.2.2.2.2 (by decide) (by decide) (by decide) (by decide) (by decide)⟩

/-- C10: when the response body is read without error but does not decode, whatever the
status code, `resultWithResponse` returns VespaFailure with the wrapped decode error as `Err`,
and `BytesRecv` is the length of the raw body. -/
theorem C10_malformed_json (lib : Lib) (resp : Response) (result : Result)
    (document : Document) (elapsed : Int) (err : GoError)
    (hread : resp.Body.readErr = none)
    (hdec : (lib.jsonUnmarshal resp.Body.data).2 = some err) :
    (resultWithResponse lib resp result document elapsed).Status = Status.StatusVespaFailure ∧
    (resultWithResponse lib resp result document elapsed).Err
      = some (GoError.wrapped "failed to decode json response: " err) ∧
    (resultWithResponse lib resp result document elapsed).Err ≠ none ∧
    (resultWithResponse lib resp result document elapsed).Stats.BytesRecv
      = (resp.Body.data.length : Int) := by
  have hst : (resultWithResponse lib resp result document elapsed).Status
      = Status.StatusVespaFailure := by
    simp only [resultWithResponse, hread, hdec]
    split <;> rfl
  have herr : (resultWithResponse lib resp result document elapsed).Err
      = some (GoError.wrapped "failed to decode json response: " err) := by
    simp only [resultWithResponse, hread, hdec]
    split <;> rfl
  have hrecv : (resultWithResponse lib resp result document elapsed).Stats.BytesRecv
      = (resp.Body.data.length : Int) := by
    simp only [resultWithResponse, hread, hdec]
    split <;> rfl
  exact ⟨hst, herr, by rw [herr]; simp, hrecv⟩

/-- Witness of C10: a 200 response whose body is `oops`. -/
theorem C10_malformed_json_witness :
    (resultWithResponse sampleLib ⟨200, ⟨lit "oops", none⟩⟩ sampleResult (sampleDocument [])
      5).Status = Status.StatusVespaFailure ∧
    (resultWithResponse sampleLib ⟨200, ⟨lit "oops", none⟩⟩ sampleResult (sampleDocument [])
      5).Stats.BytesRecv = 4 :=
  have h := C10_malformed_json sampleLib ⟨200, ⟨lit "oops", none⟩⟩ sampleResult
    (sampleDocument []) 5 (GoError.external 1) rfl (by decide)
  ⟨h.1, h.2.2.2⟩

/-! ## Timeout policy -/

/-- C2: with `Timeout` = 10s the code returns 11s plus 1000 nanoseconds, because the margin
`1000` is added to a duration counted in nanoseconds; it is not the 12s of a 1000ms margin. -/
theorem C2_clientTimeout_ten_seconds :
    clientTimeout (sampleClient (10 * Second) CompressionAuto [⟨0, 0⟩] 0) = 11 * Second + 1000 ∧
    clientTimeout (sampleClient (10 * Second) CompressionAuto [⟨0, 0⟩] 0)
      ≠ 10 * Second * 11 / 10 + 1000 * Millisecond ∧
    clientTimeout (sampleClient (10 * Second) CompressionAuto [⟨0, 0⟩] 0) ≠ 12 * Second := by
  decide

/-- C3: a `Timeout` below one nanosecond (zero or negative) gives the default of 190
seconds. -/
theorem C3_clientTimeout_default (c : Client) (h : c.options.Timeout < 1) :
    clientTimeout c = 190 * Second ∧ clientTimeout c = 190000000000 := by
  have h1 : clientTimeout c = 190 * Second := by
    unfold clientTimeout
    rw [if_pos h]
  exact ⟨h1, by rw [h1]; rfl⟩

/-- Witness of C3: `Timeout` = 0. -/
theorem C3_clientTimeout_default_witness :
    (sampleClient 0 CompressionAuto [⟨0, 0⟩] 0).options.Timeout < 1 ∧
    clientTimeout (sampleClient 0 CompressionAuto [⟨0, 0⟩] 0) = 190000000000 :=
  ⟨by decide, (C3_clientTimeout_default (sampleClient 0 CompressionAuto [⟨0, 0⟩] 0)
    (by decide)).2⟩

/-! ## Compressor -/

/-- C9: `createRequest` returns a request exactly when the encoder (if used) and
`http.NewRequest` succeed, and every request it returns carries the header
`Content-Type: application/json; charset=utf-8`, carries `Content-Encoding: gzip` exactly when
the mode is Gzip or the mode is Auto and the body is longer than 512 bytes, has the gzip
encoding of the body as its body in that case, and has the raw body and no `Content-Encoding`
header otherwise; so Auto keeps 512 bytes raw and compresses 513, Gzip compresses the empty
body and None compresses nothing. -/
theorem C9_createRequest_compression (lib : Lib) (c : Client) (method : String)
    (url body : GoString) :
    ((∃ req, createRequest lib c method url body = Except.ok req) ↔
      (lib.newRequestErr method url = none ∧
        ((c.options.Compression = CompressionGzip ∨
            (c.options.Compression = CompressionAuto ∧ body.length > 512)) →
          ∃ z, lib.gzip body = Except.ok z))) ∧
    (∀ req, createRequest lib c method url body = Except.ok req →
      headerGet req.header "Content-Type" = some "application/json; charset=utf-8" ∧
      (headerGet req.header "Content-Encoding" = some "gzip" ↔
        (c.options.Compression = CompressionGzip ∨
          (c.options.Compression = CompressionAuto ∧ body.length > 512))) ∧
      (headerGet req.header "Content-Encoding" = some "gzip" →
        lib.gzip body = Except.ok req.body) ∧
      (headerGet req.header "Content-Encoding" ≠ some "gzip" →
        req.body = body ∧ headerGet req.header "Content-Encoding" = none) ∧
      (c.options.Compression = CompressionAuto → body.length = 512 →
        req.body = body ∧ headerGet req.header "Content-Encoding" = none) ∧
      (c.options.Compression = CompressionAuto → body.length = 513 →
        lib.gzip body = Except.ok req.body ∧
          headerGet req.header "Content-Encoding" = some "gzip") ∧
      (c.options.Compression = CompressionGzip → body = [] →
        lib.gzip [] = Except.ok req.body ∧
          headerGet req.header "Content-Encoding" = some "gzip") ∧
      (c.options.Compression = CompressionNone →
        req.body = body ∧ headerGet req.header "Content-Encoding" = none)) := by
  have hD : useGzip c body = true ↔
      (c.options.Compression = CompressionGzip ∨
        (c.options.Compression = CompressionAuto ∧ body.length > 512)) := by
    simp [useGzip]
  have key : ∀ req, createRequest lib c method url body = Except.ok req →
      headerGet req.header "Content-Type" = some "application/json; charset=utf-8" ∧
      (useGzip c body = true →
        lib.gzip body = Except.ok req.body ∧
          headerGet req.header "Content-Encoding" = some "gzip") ∧
      (useGzip c body = false →
        req.body = body ∧ headerGet req.header "Content-Encoding" = none) := by
    have e1 : headerGet (headerSet (headerSet [] "Content-Encoding" "gzip") "Content-Type"
        "application/json; charset=utf-8") "Content-Type"
        = some "application/json; charset=utf-8" := by decide
    have e2 : headerGet (headerSet (headerSet [] "Content-Encoding" "gzip") "Content-Type"
        "application/json; charset=utf-8") "Content-Encoding" = some "gzip" := by decide
    have e3 : headerGet (headerSet [] "Content-Type" "application/json; charset=utf-8")
        "Content-Type" = some "application/json; charset=utf-8" := by decide
    have e4 : headerGet (headerSet [] "Content-Type" "application/json; charset=utf-8")
        "Content-Encoding" = none := by decide
    intro req h
    unfold createRequest at h
    cases hg : useGzip c body with
    | true =>
      simp only [hg, if_true] at h
      cases hz : lib.gzip body with
      | error e => simp [hz] at h
      | ok z =>
        cases hn : lib.newRequestErr method url with
        | some e => simp [hz, hn] at h
        | none =>
          simp only [hz, hn] at h
          injection h with h
          subst h
          exact ⟨e1, fun _ => ⟨rfl, e2⟩, fun h => by simp at h⟩
    | false =>
      simp only [hg] at h
      cases hn : lib.newRequestErr method url with
      | some e => simp [hn] at h
      | none =>
        simp [hn] at h
        subst h
        exact ⟨e3, fun h => by simp at h, fun _ => ⟨rfl, e4⟩⟩
  constructor
  · constructor
    · rintro ⟨req, h⟩
      have hk := key req h
      unfold createRequest at h
      cases hn : lib.newRequestErr method url with
      | some e =>
        exfalso
        cases hg : useGzip c body <;> simp only [hg, hn] at h
        · simp at h
        · cases hz : lib.gzip body <;> simp [hz] at h
      | none =>
        refine ⟨rfl, fun hd => ⟨req.body, (hk.2.1 (hD.2 hd)).1⟩⟩
    · rintro ⟨hn, hz⟩
      unfold createRequest
      cases hg : useGzip c body with
      | true =>
        obtain ⟨z, hz⟩ := hz (hD.1 hg)
        simp [hz, hn]
      | false => simp [hn]
  · intro req h
    obtain ⟨hct, ht, hf⟩ := key req h
    have hauto : CompressionAuto ≠ CompressionGzip := by decide
    have hnone : CompressionNone ≠ CompressionGzip := by decide
    have hnone2 : CompressionNone ≠ CompressionAuto := by decide
    cases hg : useGzip c body with
    | true =>
      have hd := hD.1 hg
      obtain ⟨hb, he⟩ := ht hg
      refine ⟨hct, ⟨fun _ => hd, fun _ => he⟩, fun _ => hb, fun hne => absurd he hne,
        ?_, fun _ _ => ⟨hb, he⟩, ?_, ?_⟩
      · intro ha hl
        exfalso
        rcases hd with hd | hd
        · exact hauto (ha ▸ hd)
        · omega
      · intro _ hnil
        subst hnil
        exact ⟨hb, he⟩
      · intro hn
        exfalso
        rcases hd with hd | hd
        · exact hnone (hn ▸ hd)
        · exact hnone2 (hn ▸ hd.1)
    | false =>
      have hd : ¬ (c.options.Compression = CompressionGzip ∨
          (c.options.Compression = CompressionAuto ∧ body.length > 512)) := by
        intro hd
        have := hD.2 hd
        simp [hg] at this
      obtain ⟨hb, he⟩ := hf hg
      refine ⟨hct, ⟨fun h2 => ?_, fun h2 => absurd h2 hd⟩, fun h2 => ?_, fun _ => ⟨hb, he⟩,
        fun _ _ => ⟨hb, he⟩, ?_, ?_, fun _ => ⟨hb, he⟩⟩
      · rw [he] at h2
        cases h2
      · rw [he] at h2
        cases h2
      · intro ha hl
        exact absurd (Or.inr ⟨ha, by omega⟩) hd
      · intro hgz _
        exact absurd (Or.inl hgz) hd

/-- Witness of C9: under Auto a body of 513 bytes is sent compressed. -/
theorem C9_createRequest_compression_witness :
    ∃ req, createRequest sampleLib (sampleClient 0 CompressionAuto [] 0) "POST" (lit "u")
        (List.replicate 513 0) = Except.ok req ∧
      headerGet req.header "Content-Encoding" = some "gzip" ∧
      sampleLib.gzip (List.replicate 513 0) = Except.ok req.body := by
  have h := C9_createRequest_compression sampleLib (sampleClient 0 CompressionAuto [] 0)
    "POST" (lit "u") (List.replicate 513 0)
  obtain ⟨req, hreq⟩ := h.1.2 ⟨rfl, fun _ => ⟨_, rfl⟩⟩
  have h5 := (h.2 req hreq).2.2.2.2.2.1 rfl (List.length_replicate _ _)
  exact ⟨req, hreq, h5.2, h5.1⟩

/-! ## Load balancer: the inflight counters -/

/-- Adding one and then subtracting one restores an `int64` counter, also across the wrap. -/
theorem wrapInt64_add_sub (x : Int) (h1 : -(2 ^ 63) ≤ x) (h2 : x < 2 ^ 63) :
    wrapInt64 (wrapInt64 (x + 1) + -1) = x := by
  unfold wrapInt64
  norm_num at h1 h2 ⊢
  omega

/-- The scan returns the entry it started with or a copy of a pool entry. -/
theorem leastBusyScan_mem (pool : List countingHTTPClient) (start : Int) (is : List Nat) :
    ∀ (leastBusy : countingHTTPClient) (min : Int) (r : countingHTTPClient),
      leastBusyScan pool start is leastBusy min = some r → r = leastBusy ∨ r ∈ pool := by
  induction is with
  | nil =>
    intro leastBusy min r h
    simp only [leastBusyScan, Option.some.injEq] at h
    exact Or.inl h.symm
  | cons i rest ih =>
    intro leastBusy min r h
    simp only [leastBusyScan] at h
    split at h
    · cases h
    · split at h
      · cases h
      · rename_i client hget
        have hmem : client ∈ pool := List.getElem?_mem hget
        split at h
        · rcases ih _ _ _ h with h | h
          · exact Or.inr (h ▸ hmem)
          · exact Or.inr h
        · exact ih _ _ _ h

/-- The pool itself is never written by `leastBusyClient`: only the rotation counter is. -/
theorem leastBusyClient_pool (c : Client) :
    (leastBusyClient c).1.httpClients = c.httpClients := by
  unfold leastBusyClient
  split
  · rfl
  · simp only
    split <;> rfl

/-- The value returned by `leastBusyClient` is a copy of a pool entry with one added to its
counter. -/
theorem leastBusyClient_copy (c : Client) (lb : countingHTTPClient)
    (h : (leastBusyClient c).2 = some lb) : ∃ e ∈ c.httpClients, lb = e.addInflight 1 := by
  unfold leastBusyClient at h
  split at h
  · cases h
  · rename_i first hfirst
    simp only at h
    split at h
    · cases h
    · rename_i r hr
      simp only [Option.some.injEq] at h
      have hfirstmem : first ∈ c.httpClients := List.getElem?_mem hfirst
      rcases leastBusyScan_mem _ _ _ _ _ _ hr with h2 | h2
      · exact ⟨first, hfirstmem, by rw [← h, h2]⟩
      · exact ⟨r, h2, h.symm⟩

/-- The pool is the same after `Send` as before it, whatever path the call took. -/
theorem Send_pool (lib : Lib) (c : Client) (start stop : Int) (document : Document) :
    (Send lib c start stop document).1.httpClients = c.httpClients := by
  have hp := leastBusyClient_pool c
  unfold Send
  simp only
  split
  · rfl
  · split
    · rename_i c1 heq
      rw [heq] at hp
      exact hp
    · rename_i c1 lb heq
      rw [heq] at hp
      split <;> exact hp

/-- The pool is the same after a run of `Send` calls as before it. -/
theorem SendAll_pool (lib : Lib) (calls : List (Int × Int × Document)) :
    ∀ c : Client, (SendAll lib c calls).1.httpClients = c.httpClients := by
  induction calls with
  | nil => intro c; rfl
  | cons call rest ih =>
    intro c
    obtain ⟨start, stop, document⟩ := call
    simp only [SendAll]
    rw [ih, Send_pool]

/-- C4: on a fresh client with one transport, `leastBusyClient` returns a value whose counter
is 1, but the entry stored in the pool still has the counter 0: the increment went to the
copy the function returns, not to the pool entry. -/
theorem C4_leastBusyClient_increments_copy :
    (leastBusyClient (sampleClient 0 CompressionAuto [⟨7, 0⟩] 0)).2 = some ⟨7, 1⟩ ∧
    (leastBusyClient (sampleClient 0 CompressionAuto [⟨7, 0⟩] 0)).1.httpClients = [⟨7, 0⟩] ∧
    (leastBusyClient (sampleClient 0 CompressionAuto [⟨7, 0⟩, ⟨8, 0⟩] 0)).2 = some ⟨8, 1⟩ ∧
    (leastBusyClient (sampleClient 0 CompressionAuto [⟨7, 0⟩, ⟨8, 0⟩] 0)).1.httpClients
      = [⟨7, 0⟩, ⟨8, 0⟩] := by
  decide

/-- C5: after a `Send` call, and after any run of completed `Send` calls, every pool entry has
the inflight counter it had before; and the one increment a call makes, on the value returned
by `leastBusyClient`, is undone by the one decrement of `Do`, which leaves that value equal to
the pool entry it was copied from. -/
theorem C5_inflight_restored (lib : Lib) (c : Client) :
    (∀ (start stop : Int) (document : Document),
      (Send lib c start stop document).1.httpClients.map countingHTTPClient.inflight
        = c.httpClients.map countingHTTPClient.inflight) ∧
    (∀ calls : List (Int × Int × Document),
      (SendAll lib c calls).1.httpClients.map countingHTTPClient.inflight
        = c.httpClients.map countingHTTPClient.inflight) ∧
    (∀ (lb : countingHTTPClient) (req : Request) (timeout : Int),
      (∀ e ∈ c.httpClients, -(2 ^ 63) ≤ e.inflight ∧ e.inflight < 2 ^ 63) →
      (leastBusyClient c).2 = some lb →
      ∃ e ∈ c.httpClients, lb.inflight = wrapInt64 (e.inflight + 1) ∧
        (lb.Do lib req timeout).1 = e) := by
  refine ⟨fun start stop document => by rw [Send_pool],
    fun calls => by rw [SendAll_pool], ?_⟩
  intro lb req timeout hrange hlb
  obtain ⟨e, he, hcopy⟩ := leastBusyClient_copy c lb hlb
  refine ⟨e, he, by rw [hcopy]; rfl, ?_⟩
  rw [hcopy]
  simp only [countingHTTPClient.Do, countingHTTPClient.addInflight]
  rw [wrapInt64_add_sub e.inflight (hrange e he).1 (hrange e he).2]

/-- Witness of C5: two calls on a pool with the counters 3 and 5. -/
theorem C5_inflight_restored_witness :
    (SendAll sampleLib (sampleClient 0 CompressionAuto [⟨0, 3⟩, ⟨1, 5⟩] 0)
      [(0, 1, sampleDocument []), (2, 3, sampleDocument [])]).1.httpClients.map
        countingHTTPClient.inflight = [3, 5] :=
  (C5_inflight_restored sampleLib (sampleClient 0 CompressionAuto [⟨0, 3⟩, ⟨1, 5⟩] 0)).2.1
    [(0, 1, sampleDocument []), (2, 3, sampleDocument [])]

/-! ## Request builder: the path -/

/-- C7: `urlPath` picks the selector by precedence: the `number` form when the numeric key is
set, whatever the group key; otherwise the `group` form when the group key is not empty;
otherwise the `docid` form; the namespace, the type, the group and the user-specific part are
each escaped on their own by `url.PathEscape`. -/
theorem C7_urlPath_precedence (id : Id) :
    (∀ n : Int, id.Number = some n →
      urlPath id = lit "/document/v1/" ++ PathEscape id.Namespace ++ lit "/"
        ++ PathEscape id.Type_ ++ lit "/number/" ++ FormatUint (n % 2 ^ 64).toNat ++ lit "/"
        ++ PathEscape id.UserSpecific) ∧
    (id.Number = none → id.Group ≠ [] →
      urlPath id = lit "/document/v1/" ++ PathEscape id.Namespace ++ lit "/"
        ++ PathEscape id.Type_ ++ lit "/group/" ++ PathEscape id.Group ++ lit "/"
        ++ PathEscape id.UserSpecific) ∧
    (id.Number = none → id.Group = [] →
      urlPath id = lit "/document/v1/" ++ PathEscape id.Namespace ++ lit "/"
        ++ PathEscape id.Type_ ++ lit "/docid" ++ lit "/"
        ++ PathEscape id.UserSpecific) := by
  refine ⟨?_, ?_, ?_⟩
  · intro n h
    simp only [urlPath, h, List.nil_append, List.append_assoc]
  · intro h hg
    simp only [urlPath, h, if_pos hg, List.nil_append, List.append_assoc]
  · intro h hg
    simp only [urlPath, h, if_neg (not_not.mpr hg), List.nil_append, List.append_assoc]

/-- Witness of C7: an Id with the numeric key 42 and the group key `g` gets the `number` form,
and its namespace `a/b` and user part `x y` are escaped. -/
theorem C7_urlPath_precedence_witness :
    urlPath ⟨lit "t", lit "a/b", some 42, lit "g", lit "x y"⟩
      = lit "/document/v1/a%2Fb/t/number/42/x%20y" := by
  rw [(C7_urlPath_precedence ⟨lit "t", lit "a/b", some 42, lit "g", lit "x y"⟩).1 42 rfl]
  decide

/-- The escape of a byte contains neither `/` nor a space. -/
theorem escapeByte_clean_fin : ∀ c : Byte,
    (47 : Byte) ∉ escapeByte c ∧ (32 : Byte) ∉ escapeByte c := by
  decide

/-- A byte that is kept as it is, is not `%`. -/
theorem shouldEscape_percent_fin : ∀ c : Byte, shouldEscape c = false → c ≠ 37 := by
  decide

/-- The sixteen entries of `upperhex` are distinct. -/
theorem upperhex_inj :
    ∀ a b : Fin 16, upperhex.getD a.val 0 = upperhex.getD b.val 0 → a = b := by
  decide

/-- The escape of a string contains neither `/` nor a space. -/
theorem PathEscape_clean (s : GoString) :
    (47 : Byte) ∉ PathEscape s ∧ (32 : Byte) ∉ PathEscape s := by
  unfold PathEscape
  constructor
  · intro h
    obtain ⟨c, _, hc⟩ := List.mem_flatMap.mp h
    exact (escapeByte_clean_fin c).1 hc
  · intro h
    obtain ⟨c, _, hc⟩ := List.mem_flatMap.mp h
    exact (escapeByte_clean_fin c).2 hc

/-- The escapes of two bytes, each followed by more output, agree only for the same byte. -/
theorem escapeByte_append_inj (c d : Byte) (r t : GoString)
    (h : escapeByte c ++ r = escapeByte d ++ t) : c = d ∧ r = t := by
  unfold escapeByte at h
  cases hc : shouldEscape c <;> cases hd : shouldEscape d <;>
    simp only [hc, hd, if_true, if_false, Bool.false_eq_true, List.cons_append,
      List.nil_append, List.cons.injEq] at h
  · exact h
  · exact absurd h.1 (shouldEscape_percent_fin c hc)
  · exact absurd h.1.symm (shouldEscape_percent_fin d hd)
  · obtain ⟨_, h1, h2, h3⟩ := h
    have hc256 : c.val < 256 := c.isLt
    have hd256 : d.val < 256 := d.isLt
    have e1 := upperhex_inj ⟨c.val / 16, by omega⟩ ⟨d.val / 16, by omega⟩ h1
    have e2 := upperhex_inj ⟨c.val % 16, by omega⟩ ⟨d.val % 16, by omega⟩ h2
    simp only [Fin.mk.injEq] at e1 e2
    exact ⟨Fin.ext (by omega), h3⟩

/-- The function `url.PathEscape` is injective. -/
theorem PathEscape_inj : ∀ s t : GoString, PathEscape s = PathEscape t → s = t := by
  intro s
  induction s with
  | nil =>
    intro t h
    cases t with
    | nil => rfl
    | cons d t =>
      exfalso
      simp only [PathEscape, List.flatMap_nil, List.flatMap_cons] at h
      have hd : escapeByte d ≠ [] := by
        unfold escapeByte
        split <;> simp
      have := congrArg List.length h
      simp only [List.length_nil, List.length_append] at this
      have hl : 0 < (escapeByte d).length := List.length_pos.mpr hd
      omega
  | cons c s ih =>
    intro t h
    cases t with
    | nil =>
      exfalso
      simp only [PathEscape, List.flatMap_nil, List.flatMap_cons] at h
      have hc : escapeByte c ≠ [] := by
        unfold escapeByte
        split <;> simp
      have := congrArg List.length h
      simp only [List.length_nil, List.length_append] at this
      have hl : 0 < (escapeByte c).length := List.length_pos.mpr hc
      omega
    | cons d t =>
      simp only [PathEscape, List.flatMap_cons] at h
      obtain ⟨h1, h2⟩ := escapeByte_append_inj c d _ _ h
      rw [h1, ih t h2]

/-- Two strings without `/`, each followed by `/` and more, agree only part by part. -/
theorem slash_split : ∀ (a b r t : GoString), (47 : Byte) ∉ a → (47 : Byte) ∉ b →
    a ++ 47 :: r = b ++ 47 :: t → a = b ∧ r = t := by
  intro a
  induction a with
  | nil =>
    intro b r t _ hb h
    cases b with
    | nil =>
      simp only [List.nil_append, List.cons.injEq, true_and] at h
      exact ⟨rfl, h⟩
    | cons y b =>
      simp only [List.nil_append, List.cons_append, List.cons.injEq] at h
      exact absurd (h.1 ▸ List.mem_cons_self _ _) hb
  | cons x a ih =>
    intro b r t ha hb h
    cases b with
    | nil =>
      simp only [List.nil_append, List.cons_append, List.cons.injEq] at h
      exact absurd (h.1 ▸ List.mem_cons_self _ _) ha
    | cons y b =>
      simp only [List.cons_append, List.cons.injEq] at h
      have ha2 : (47 : Byte) ∉ a := fun hm => ha (List.mem_cons_of_mem _ hm)
      have hb2 : (47 : Byte) ∉ b := fun hm => hb (List.mem_cons_of_mem _ hm)
      obtain ⟨e1, e2⟩ := ih b r t ha2 hb2 h.2
      exact ⟨by rw [h.1, e1], e2⟩

/-- Every digit produced by `revDigits` is below ten. -/
theorem revDigits_lt : ∀ (fuel n d : Nat), d ∈ revDigits fuel n → d < 10 := by
  intro fuel
  induction fuel with
  | zero =>
    intro n d h
    simp [revDigits] at h
  | succ fuel ih =>
    intro n d h
    unfold revDigits at h
    split at h
    · simp only [List.mem_singleton] at h
      omega
    · rcases List.mem_cons.mp h with h | h
      · omega
      · exact ih _ _ h

/-- With enough fuel the digits of `revDigits` are those of the number. -/
theorem revDigits_ofDigits : ∀ (fuel n : Nat), n < 10 ^ fuel →
    Nat.ofDigits 10 (revDigits fuel n) = n := by
  intro fuel
  induction fuel with
  | zero =>
    intro n h
    simp only [pow_zero, Nat.lt_one_iff] at h
    simp [revDigits, h]
  | succ fuel ih =>
    intro n h
    unfold revDigits
    split
    · simp [Nat.ofDigits]
    · have h2 : n / 10 < 10 ^ fuel := by
        rw [pow_succ] at h
        omega
      rw [Nat.ofDigits_cons, ih _ h2]
      show n % 10 + 10 * (n / 10) = n
      omega

/-- The bytes of `FormatUint` are the digits, most significant first, plus the code of `0`. -/
theorem FormatUint_toNat (n : Nat) :
    (FormatUint n).map Fin.val = (revDigits 20 n).reverse.map (fun d => 48 + d) := by
  unfold FormatUint
  rw [List.map_map]
  apply List.map_congr_left
  intro d hd
  have hlt : d < 10 := revDigits_lt 20 n d (List.mem_reverse.mp hd)
  show (48 + d) % 256 = 48 + d
  omega

/-- The decimal form contains neither `/` nor a space. -/
theorem FormatUint_clean (n : Nat) :
    (47 : Byte) ∉ FormatUint n ∧ (32 : Byte) ∉ FormatUint n := by
  have key : ∀ b : Byte, b ∈ FormatUint n → 48 ≤ b.val := by
    intro b hb
    have hm : b.val ∈ (FormatUint n).map Fin.val := List.mem_map_of_mem _ hb
    rw [FormatUint_toNat] at hm
    obtain ⟨d, _, hd⟩ := List.mem_map.mp hm
    omega
  constructor
  · intro h
    have := key _ h
    revert this
    decide
  · intro h
    have := key _ h
    revert this
    decide

/-- The decimal form is injective on the range of a `uint64`. -/
theorem FormatUint_inj (n m : Nat) (hn : n < 2 ^ 64) (hm : m < 2 ^ 64)
    (h : FormatUint n = FormatUint m) : n = m := by
  have h1 := congrArg (List.map Fin.val) h
  rw [FormatUint_toNat, FormatUint_toNat] at h1
  have hinj : Function.Injective (fun d : Nat => 48 + d) := fun a b hab =>
    Nat.add_left_cancel hab
  have h2 := List.reverse_injective (List.map_injective_iff.mpr hinj h1)
  have hn20 : n < 10 ^ 20 := lt_trans hn (by norm_num)
  have hm20 : m < 10 ^ 20 := lt_trans hm (by norm_num)
  rw [← revDigits_ofDigits 20 n hn20, ← revDigits_ofDigits 20 m hm20, h2]

/-- The `number` form of the path, with its seven separators spelled out. -/
theorem urlPath_number (id : Id) (n : Int) (h : id.Number = some n) :
    urlPath id = lit "/document/v1/" ++ (PathEscape id.Namespace ++ 47 ::
      (PathEscape id.Type_ ++ 47 :: (lit "number" ++ 47 ::
        (FormatUint (n % 2 ^ 64).toNat ++ 47 :: PathEscape id.UserSpecific)))) := by
  simp only [urlPath, h, List.nil_append, List.append_assoc]
  rw [show lit "/" = [47] from rfl, show lit "/number/" = 47 :: (lit "number" ++ [47]) from rfl]
  simp only [List.cons_append, List.nil_append, List.append_assoc]

/-- The `group` form of the path, with its seven separators spelled out. -/
theorem urlPath_group (id : Id) (h : id.Number = none) (hg : id.Group ≠ []) :
    urlPath id = lit "/document/v1/" ++ (PathEscape id.Namespace ++ 47 ::
      (PathEscape id.Type_ ++ 47 :: (lit "group" ++ 47 ::
        (PathEscape id.Group ++ 47 :: PathEscape id.UserSpecific)))) := by
  simp only [urlPath, h, if_pos hg, List.nil_append, List.append_assoc]
  rw [show lit "/" = [47] from rfl, show lit "/group/" = 47 :: (lit "group" ++ [47]) from rfl]
  simp only [List.cons_append, List.nil_append, List.append_assoc]

/-- The `docid` form of the path, with its six separators spelled out. -/
theorem urlPath_docid (id : Id) (h : id.Number = none) (hg : id.Group = []) :
    urlPath id = lit "/document/v1/" ++ (PathEscape id.Namespace ++ 47 ::
      (PathEscape id.Type_ ++ 47 :: (lit "docid" ++ 47 :: PathEscape id.UserSpecific))) := by
  simp only [urlPath, h, if_neg (not_not.mpr hg), List.nil_append, List.append_assoc]
  rw [show lit "/" = [47] from rfl, show lit "/docid" = 47 :: lit "docid" from rfl]
  simp only [List.cons_append, List.nil_append, List.append_assoc]

/-- C8: the path built by `urlPath` is unambiguous. No escaped segment (namespace, type, group,
user-specific part) and no number segment contains `/` or a space; the path has exactly 6
separators `/` in the `docid` form and exactly 7 in the `number` and `group` forms; and two
Ids of the same form with the same path have the same namespace, type, selector value (the
numeric key, a signed 64-bit integer, or the group key) and user-specific part. -/
theorem C8_urlPath_unambiguous :
    (∀ s : GoString, (47 : Byte) ∉ PathEscape s ∧ (32 : Byte) ∉ PathEscape s) ∧
    (∀ n : Nat, (47 : Byte) ∉ FormatUint n ∧ (32 : Byte) ∉ FormatUint n) ∧
    (∀ id : Id, id.Number = none → id.Group = [] → (urlPath id).count 47 = 6) ∧
    (∀ id : Id, id.Number = none → id.Group ≠ [] → (urlPath id).count 47 = 7) ∧
    (∀ id : Id, id.Number ≠ none → (urlPath id).count 47 = 7) ∧
    (∀ (id id2 : Id) (n n2 : Int), id.Number = some n → id2.Number = some n2 →
      -(2 ^ 63) ≤ n → n < 2 ^ 63 → -(2 ^ 63) ≤ n2 → n2 < 2 ^ 63 →
      urlPath id = urlPath id2 →
      id.Namespace = id2.Namespace ∧ id.Type_ = id2.Type_ ∧ n = n2 ∧
        id.UserSpecific = id2.UserSpecific) ∧
    (∀ id id2 : Id, id.Number = none → id2.Number = none → id.Group ≠ [] → id2.Group ≠ [] →
      urlPath id = urlPath id2 →
      id.Namespace = id2.Namespace ∧ id.Type_ = id2.Type_ ∧ id.Group = id2.Group ∧
        id.UserSpecific = id2.UserSpecific) ∧
    (∀ id id2 : Id, id.Number = none → id2.Number = none → id.Group = [] → id2.Group = [] →
      urlPath id = urlPath id2 →
      id.Namespace = id2.Namespace ∧ id.Type_ = id2.Type_ ∧
        id.UserSpecific = id2.UserSpecific) := by
  have hz : ∀ s : GoString, (PathEscape s).count 47 = 0 := fun s =>
    List.count_eq_zero.mpr (PathEscape_clean s).1
  have hf : ∀ n : Nat, (FormatUint n).count 47 = 0 := fun n =>
    List.count_eq_zero.mpr (FormatUint_clean n).1
  have c0 : (lit "/document/v1/").count 47 = 3 := by decide
  have c1 : (lit "number").count 47 = 0 := by decide
  have c2 : (lit "group").count 47 = 0 := by decide
  have c3 : (lit "docid").count 47 = 0 := by decide
  have m1 : (47 : Byte) ∉ lit "number" := by decide
  have m2 : (47 : Byte) ∉ lit "group" := by decide
  have m3 : (47 : Byte) ∉ lit "docid" := by decide
  refine ⟨PathEscape_clean, FormatUint_clean, ?_, ?_, ?_, ?_, ?_, ?_⟩
  · intro id h hg
    rw [urlPath_docid id h hg]
    simp only [List.count_append, List.count_cons_self, hz, c0, c3]
  · intro id h hg
    rw [urlPath_group id h hg]
    simp only [List.count_append, List.count_cons_self, hz, c0, c2]
  · intro id h
    obtain ⟨n, hn⟩ := Option.ne_none_iff_exists'.mp h
    rw [urlPath_number id n hn]
    simp only [List.count_append, List.count_cons_self, hz, hf, c0, c1]
  · intro id id2 n n2 h h2 hn1 hn2 hn3 hn4 heq
    rw [urlPath_number id n h, urlPath_number id2 n2 h2] at heq
    have e := List.append_cancel_left heq
    obtain ⟨e1, e⟩ := slash_split _ _ _ _ (PathEscape_clean _).1 (PathEscape_clean _).1 e
    obtain ⟨e2, e⟩ := slash_split _ _ _ _ (PathEscape_clean _).1 (PathEscape_clean _).1 e
    obtain ⟨_, e⟩ := slash_split _ _ _ _ m1 m1 e
    obtain ⟨e3, e4⟩ := slash_split _ _ _ _ (FormatUint_clean _).1 (FormatUint_clean _).1 e
    have b1 : (n % 2 ^ 64).toNat < 2 ^ 64 := by omega
    have b2 : (n2 % 2 ^ 64).toNat < 2 ^ 64 := by omega
    have e5 := FormatUint_inj _ _ b1 b2 e3
    exact ⟨PathEscape_inj _ _ e1, PathEscape_inj _ _ e2, by omega, PathEscape_inj _ _ e4⟩
  · intro id id2 h h2 hg hg2 heq
    rw [urlPath_group id h hg, urlPath_group id2 h2 hg2] at heq
    have e := List.append_cancel_left heq
    obtain ⟨e1, e⟩ := slash_split _ _ _ _ (PathEscape_clean _).1 (PathEscape_clean _).1 e
    obtain ⟨e2, e⟩ := slash_split _ _ _ _ (PathEscape_clean _).1 (PathEscape_clean _).1 e
    obtain ⟨_, e⟩ := slash_split _ _ _ _ m2 m2 e
    obtain ⟨e3, e4⟩ := slash_split _ _ _ _ (PathEscape_clean _).1 (PathEscape_clean _).1 e
    exact ⟨PathEscape_inj _ _ e1, PathEscape_inj _ _ e2, PathEscape_inj _ _ e3,
      PathEscape_inj _ _ e4⟩
  · intro id id2 h h2 hg hg2 heq
    rw [urlPath_docid id h hg, urlPath_docid id2 h2 hg2] at heq
    have e := List.append_cancel_left heq
    obtain ⟨e1, e⟩ := slash_split _ _ _ _ (PathEscape_clean _).1 (PathEscape_clean _).1 e
    obtain ⟨e2, e⟩ := slash_split _ _ _ _ (PathEscape_clean _).1 (PathEscape_clean _).1 e
    obtain ⟨_, e4⟩ := slash_split _ _ _ _ m3 m3 e
    exact ⟨PathEscape_inj _ _ e1, PathEscape_inj _ _ e2, PathEscape_inj _ _ e4⟩

/-- Witness of C8: an Id whose namespace, type and user part contain `/` and spaces still has
six separators in its path. -/
theorem C8_urlPath_unambiguous_witness :
    (urlPath ⟨lit "t /", lit "a/b", none, [], lit "x / y"⟩).count 47 = 6 :=
  C8_urlPath_unambiguous.2.2.1 ⟨lit "t /", lit "a/b", none, [], lit "x / y"⟩ rfl rfl

/-! ## Load balancer: rotation -/

/-- With equal counters and the minimum already at their value, the scan keeps its entry. -/
theorem leastBusyScan_equal (pool : List countingHTTPClient) (start v : Int)
    (hpool : pool ≠ []) (hstart : 0 ≤ start) (hv : ∀ e ∈ pool, e.inflight = v) :
    ∀ (is : List Nat) (leastBusy : countingHTTPClient),
      leastBusyScan pool start is leastBusy v = some leastBusy := by
  have hlen : (0 : Int) < (pool.length : Int) := by
    have := List.length_pos.mpr hpool
    omega
  intro is
  induction is with
  | nil => intro leastBusy; rfl
  | cons i rest ih =>
    intro leastBusy
    have hj0 : 0 ≤ Int.tmod ((i : Int) + start) (pool.length : Int) :=
      Int.tmod_nonneg _ (by omega)
    have hj1 : Int.tmod ((i : Int) + start) (pool.length : Int) < (pool.length : Int) :=
      Int.tmod_lt_of_pos _ hlen
    have hlt : (Int.tmod ((i : Int) + start) (pool.length : Int)).toNat < pool.length := by
      omega
    simp only [leastBusyScan]
    rw [if_neg (by omega), List.getElem?_eq_getElem hlt]
    simp only
    rw [hv _ (List.getElem_mem hlt), if_neg (lt_irrefl v)]
    exact ih leastBusy

/-- With equal counters below `math.MaxInt64` and a start offset inside the pool, the full
scan returns the entry at the start offset. -/
theorem leastBusyScan_start (pool : List countingHTTPClient) (start : Nat) (v : Int)
    (first : countingHTTPClient) (hstart : start < pool.length)
    (hv : ∀ e ∈ pool, e.inflight = v) (hvlt : v < MaxInt64) :
    leastBusyScan pool (start : Int) (List.range pool.length) first MaxInt64
      = pool[start]? := by
  have hpool : pool ≠ [] := List.length_pos.mp (by omega)
  obtain ⟨n, hn⟩ : ∃ n, pool.length = n + 1 := ⟨pool.length - 1, by omega⟩
  rw [hn, List.range_succ_eq_map]
  simp only [leastBusyScan]
  have hj : Int.tmod (((0 : Nat) : Int) + (start : Int)) (pool.length : Int)
      = (start : Int) := by
    have h0 : ((0 : Nat) : Int) + (start : Int) = (start : Int) := by omega
    rw [h0]
    exact Int.tmod_eq_of_lt (by omega) (by omega)
  rw [hj, if_neg (by omega)]
  simp only [Int.toNat_ofNat]
  rw [List.getElem?_eq_getElem hstart]
  simp only
  rw [hv _ (List.getElem_mem hstart), if_pos hvlt]
  exact leastBusyScan_equal pool start v hpool (by omega) hv _ _

/-- With equal counters below `math.MaxInt64` and a rotation counter that does not wrap,
`leastBusyClient` advances the counter by one and returns a copy of the entry at the new
counter modulo the pool size. -/
theorem leastBusyClient_equal (c : Client) (v : Int) (hpool : c.httpClients ≠ [])
    (hv : ∀ e ∈ c.httpClients, e.inflight = v) (hvlt : v < MaxInt64)
    (hs : 0 ≤ c.sendCount) (hs2 : c.sendCount + 1 < 2 ^ 31) :
    leastBusyClient c = ({ c with sendCount := c.sendCount + 1 },
      (c.httpClients[(c.sendCount.toNat + 1) % c.httpClients.length]?).map
        (fun e => e.addInflight 1)) := by
  have hlen : 0 < c.httpClients.length := List.length_pos.mpr hpool
  have hwrap : wrapInt32 (c.sendCount + 1) = c.sendCount + 1 := by
    unfold wrapInt32
    omega
  have hstart : Int.tmod (c.sendCount + 1) (c.httpClients.length : Int)
      = (((c.sendCount.toNat + 1) % c.httpClients.length : Nat) : Int) := by
    have h1 : c.sendCount + 1 = ((c.sendCount.toNat + 1 : Nat) : Int) := by omega
    rw [h1, Int.ofNat_tmod]
  have hidx : (c.sendCount.toNat + 1) % c.httpClients.length < c.httpClients.length :=
    Nat.mod_lt _ hlen
  unfold leastBusyClient
  rw [List.getElem?_eq_getElem hlen]
  simp only [hwrap, hstart]
  rw [leastBusyScan_start c.httpClients _ v _ hidx hv hvlt, List.getElem?_eq_getElem hidx]
  rfl

/-- With equal counters below `math.MaxInt64` and a rotation counter that does not wrap within
the run, call number `i` of a run picks the entry at the counter plus `i + 1`, modulo the
pool size. -/
theorem selectRun_equal (v : Int) : ∀ (k : Nat) (c : Client), c.httpClients ≠ [] →
    (∀ e ∈ c.httpClients, e.inflight = v) → v < MaxInt64 → 0 ≤ c.sendCount →
    c.sendCount + k < 2 ^ 31 →
    selectRun k c = (List.range k).map (fun i =>
      (c.httpClients[(c.sendCount.toNat + 1 + i) % c.httpClients.length]?).map
        countingHTTPClient.client) := by
  intro k
  induction k with
  | zero => intro c _ _ _ _ _; rfl
  | succ k ih =>
    intro c hpool hv hvlt hs hk
    have hstep := leastBusyClient_equal c v hpool hv hvlt hs (by omega)
    have hs1 : (0 : Int) ≤ c.sendCount + 1 := by omega
    have hk1 : c.sendCount + 1 + (k : Int) < 2 ^ 31 := by
      have : ((k + 1 : Nat) : Int) = (k : Int) + 1 := by omega
      omega
    have hih := ih { c with sendCount := c.sendCount + 1 } hpool hv hvlt hs1 hk1
    have htn : (c.sendCount + 1).toNat = c.sendCount.toNat + 1 := by omega
    simp only [selectRun, hstep, hih, htn, List.range_succ_eq_map, List.map_cons, List.map_map,
      Option.map_map]
    refine congrArg₂ List.cons ?_ ?_
    · cases c.httpClients[(c.sendCount.toNat + 1) % c.httpClients.length]? <;> rfl
    · apply List.map_congr_left
      intro i _
      simp only [Function.comp, Nat.succ_eq_add_one]
      rw [show c.sendCount.toNat + 1 + 1 + i = c.sendCount.toNat + 1 + (i + 1) by omega]

/-- A run of `k` consecutive numbers starting at `a`, with `k` a multiple of `n`, has `k / n`
members in each residue class modulo `n`. -/
theorem count_residue (a k n j : Nat) (hj : j < n) (hdiv : n ∣ k) :
    Nat.count (fun i => (a + i) % n = j) k = k / n := by
  have hn : 0 < n := by omega
  obtain ⟨q, rfl⟩ := hdiv
  have hp : ∀ m, Nat.count (fun i => i ≡ j [MOD n]) m = m / n + if j % n < m % n then 1 else 0 :=
    fun m => Nat.count_modEq_card m hn j
  have hadd := Nat.count_add (fun i => i ≡ j [MOD n]) a (n * q)
  have e1 : Nat.count (fun i => (a + i) % n = j) (n * q)
      = Nat.count (fun i => a + i ≡ j [MOD n]) (n * q) := by
    congr 1
    funext i
    unfold Nat.ModEq
    rw [Nat.mod_eq_of_lt hj]
  rw [hp, hp] at hadd
  rw [e1]
  have h1 : (a + n * q) % n = a % n := Nat.add_mul_mod_self_left a n q
  have h2 : (a + n * q) / n = a / n + q := by
    rw [Nat.add_mul_div_left a q hn]
  have h3 : n * q / n = q := Nat.mul_div_cancel_left q hn
  rw [h1, h2] at hadd
  rw [h3]
  omega

/-- Fairness of the rotation: with `n` distinct transports whose counters are equal and below
`math.MaxInt64`, and a rotation counter that does not wrap within the run, `k` consecutive
calls with `k` a multiple of `n` pick every transport exactly `k / n` times. -/
theorem selectRun_fair (c : Client) (v : Int) (k : Nat) (hpool : c.httpClients ≠ [])
    (hv : ∀ e ∈ c.httpClients, e.inflight = v) (hvlt : v < MaxInt64)
    (hs : 0 ≤ c.sendCount) (hk : c.sendCount + k < 2 ^ 31)
    (hdiv : c.httpClients.length ∣ k)
    (hnodup : (c.httpClients.map countingHTTPClient.client).Nodup) :
    ∀ e ∈ c.httpClients, (selectRun k c).count (some e.client) = k / c.httpClients.length := by
  intro e he
  obtain ⟨j, hj, hje⟩ := List.getElem_of_mem he
  have hlen : 0 < c.httpClients.length := List.length_pos.mpr hpool
  rw [selectRun_equal v k c hpool hv hvlt hs hk, List.count_eq_countP, List.countP_map,
    ← count_residue (c.sendCount.toNat + 1) k c.httpClients.length j hj hdiv]
  unfold Nat.count
  apply List.countP_congr
  intro i _
  have hi : (c.sendCount.toNat + 1 + i) % c.httpClients.length < c.httpClients.length :=
    Nat.mod_lt _ hlen
  simp only [Function.comp, List.getElem?_eq_getElem hi, Option.map_some', beq_iff_eq,
    Option.some.injEq, decide_eq_true_eq]
  rw [← hje]
  constructor
  · intro h
    have hi2 : (c.sendCount.toNat + 1 + i) % c.httpClients.length
        < (c.httpClients.map countingHTTPClient.client).length := by simpa using hi
    have hj2 : j < (c.httpClients.map countingHTTPClient.client).length := by simpa using hj
    have h1 : (c.httpClients.map countingHTTPClient.client)[
        (c.sendCount.toNat + 1 + i) % c.httpClients.length]
        = (c.httpClients.map countingHTTPClient.client)[j] := by
      simpa using h
    exact (List.Nodup.getElem_inj_iff hnodup).mp h1
  · intro h
    simp only [h]

/-- A run of `a + b` calls is a run of `a` calls followed by a run of `b` calls. -/
theorem selectRun_append : ∀ (a b : Nat) (c : Client),
    selectRun (a + b) c = selectRun a c ++ selectRun b (afterRun a c) := by
  intro a
  induction a with
  | zero =>
    intro b c
    simp only [Nat.zero_add, selectRun, afterRun, List.nil_append]
  | succ a ih =>
    intro b c
    rw [show a + 1 + b = (a + b) + 1 by omega]
    simp only [selectRun, afterRun, ih, List.cons_append]

/-- With equal counters below `math.MaxInt64`, a run that does not wrap the rotation counter
leaves the client with the counter advanced by the number of calls. -/
theorem afterRun_equal (v : Int) : ∀ (k : Nat) (c : Client), c.httpClients ≠ [] →
    (∀ e ∈ c.httpClients, e.inflight = v) → v < MaxInt64 → 0 ≤ c.sendCount →
    c.sendCount + k < 2 ^ 31 →
    afterRun k c = { c with sendCount := c.sendCount + k } := by
  intro k
  induction k with
  | zero =>
    intro c _ _ _ _ _
    simp only [afterRun, Nat.cast_zero, add_zero]
  | succ k ih =>
    intro c hpool hv hvlt hs hk
    have hstep := leastBusyClient_equal c v hpool hv hvlt hs (by omega)
    have hs1 : (0 : Int) ≤ c.sendCount + 1 := by omega
    have hk1 : c.sendCount + 1 + (k : Int) < 2 ^ 31 := by
      have : ((k + 1 : Nat) : Int) = (k : Int) + 1 := by omega
      omega
    have hih := ih { c with sendCount := c.sendCount + 1 } hpool hv hvlt hs1 hk1
    simp only [afterRun, hstep, hih]
    congr 1
    push_cast
    ring

/-- C6: on a fresh client with two idle transports, the rotation counter reaches 2147483646
after as many calls; of the next four calls the third panics, because the counter has wrapped
to a negative `int32` and the start offset `-1` indexes outside the pool. Over the 2147483650
calls (a multiple of 2) transport 1 is picked 1073741824 times, not 2147483650 / 2. -/
theorem C6_rotation_wrap_breaks_fairness :
    selectRun 4 (sampleClient 0 CompressionAuto [⟨0, 0⟩, ⟨1, 0⟩] 2147483646)
      = [some 1, some 0, none, some 0] ∧
    afterRun 2147483646 (sampleClient 0 CompressionAuto [⟨0, 0⟩, ⟨1, 0⟩] 0)
      = sampleClient 0 CompressionAuto [⟨0, 0⟩, ⟨1, 0⟩] 2147483646 ∧
    (selectRun 2147483650 (sampleClient 0 CompressionAuto [⟨0, 0⟩, ⟨1, 0⟩] 0)).count (some 1)
      = 1073741824 ∧
    none ∈ selectRun 2147483650 (sampleClient 0 CompressionAuto [⟨0, 0⟩, ⟨1, 0⟩] 0) ∧
    2147483650 / 2 = 1073741825 := by
  have hpool : (sampleClient 0 CompressionAuto [⟨0, 0⟩, ⟨1, 0⟩] 0).httpClients ≠ [] := by
    decide
  have hv : ∀ e ∈ (sampleClient 0 CompressionAuto [⟨0, 0⟩, ⟨1, 0⟩] 0).httpClients,
      e.inflight = 0 := by decide
  have hvlt : (0 : Int) < MaxInt64 := by decide
  have hs : (0 : Int) ≤ (sampleClient 0 CompressionAuto [⟨0, 0⟩, ⟨1, 0⟩] 0).sendCount := by
    decide
  have hk : (sampleClient 0 CompressionAuto [⟨0, 0⟩, ⟨1, 0⟩] 0).sendCount
      + ((2147483646 : Nat) : Int) < 2 ^ 31 := by decide
  have htail : selectRun 4 (sampleClient 0 CompressionAuto [⟨0, 0⟩, ⟨1, 0⟩] 2147483646)
      = [some 1, some 0, none, some 0] := by decide
  have hstate : afterRun 2147483646 (sampleClient 0 CompressionAuto [⟨0, 0⟩, ⟨1, 0⟩] 0)
      = sampleClient 0 CompressionAuto [⟨0, 0⟩, ⟨1, 0⟩] 2147483646 := by
    rw [afterRun_equal 0 2147483646 _ hpool hv hvlt hs hk]
    rfl
  have hdiv : (sampleClient 0 CompressionAuto [⟨0, 0⟩, ⟨1, 0⟩] 0).httpClients.length
      ∣ 2147483646 := ⟨1073741823, rfl⟩
  have hfair : (selectRun 2147483646
      (sampleClient 0 CompressionAuto [⟨0, 0⟩, ⟨1, 0⟩] 0)).count (some 1) = 2147483646 / 2 :=
    selectRun_fair (sampleClient 0 CompressionAuto [⟨0, 0⟩, ⟨1, 0⟩] 0) 0
      2147483646 hpool hv hvlt hs hk hdiv (by decide) ⟨1, 0⟩ (by decide)
  have hsplit : selectRun 2147483650 (sampleClient 0 CompressionAuto [⟨0, 0⟩, ⟨1, 0⟩] 0)
      = selectRun 2147483646 (sampleClient 0 CompressionAuto [⟨0, 0⟩, ⟨1, 0⟩] 0)
        ++ [some 1, some 0, none, some 0] := by
    rw [show (2147483650 : Nat) = 2147483646 + 4 by rfl, selectRun_append, hstate, htail]
  refine ⟨htail, hstate, ?_, ?_, by decide⟩
  · rw [hsplit, List.count_append, hfair]
    decide
  · rw [hsplit]
    exact List.mem_append_right _ (by decide)

/-! ## Orchestrator and statistics -/

/-- C19: for a result whose response count is still zero, as `Send` passes it,
`resultWithResponse` produces `Responses` = 1, a `ResponsesByCode` map with the single entry
status code to 1, `BytesSent` = the length of the document body (the body of the document,
not of the request, so compression does not enter), `BytesRecv` = the length of the bytes read
from the response, and all three latencies equal to `elapsed`. -/
theorem C19_response_stats (lib : Lib) (resp : Response) (result : Result)
    (document : Document) (elapsed : Int) (h0 : result.Stats.Responses = 0) :
    (resultWithResponse lib resp result document elapsed).Stats.Responses = 1 ∧
    (resultWithResponse lib resp result document elapsed).Stats.ResponsesByCode
      = [(resp.StatusCode, 1)] ∧
    (resultWithResponse lib resp result document elapsed).Stats.BytesSent
      = (document.Body.length : Int) ∧
    (resultWithResponse lib resp result document elapsed).Stats.BytesRecv
      = (resp.Body.data.length : Int) ∧
    (resultWithResponse lib resp result document elapsed).Stats.TotalLatency = elapsed ∧
    (resultWithResponse lib resp result document elapsed).Stats.MinLatency = elapsed ∧
    (resultWithResponse lib resp result document elapsed).Stats.MaxLatency = elapsed := by
  have h1 : wrapInt64 (result.Stats.Responses + 1) = 1 := by
    rw [h0]
    decide
  cases hr : resp.Body.readErr with
  | some e =>
    simp only [resultWithResponse, hr, h1]
    refine ⟨?_, ?_, ?_, ?_, ?_, ?_, ?_⟩ <;> first | trivial | rfl | (split <;> rfl)
  | none =>
    cases hd : (lib.jsonUnmarshal resp.Body.data).2 with
    | some e =>
      simp only [resultWithResponse, hr, hd, h1]
      refine ⟨?_, ?_, ?_, ?_, ?_, ?_, ?_⟩ <;> first | trivial | rfl | (split <;> rfl)
    | none =>
      simp only [resultWithResponse, hr, hd, h1]
      refine ⟨?_, ?_, ?_, ?_, ?_, ?_, ?_⟩ <;> first | trivial | rfl | (split <;> rfl)

/-- Witness of C19: a 404 response of 2 bytes to a document of 3 bytes, after 5 ns. -/
theorem C19_response_stats_witness :
    (resultWithResponse sampleLib ⟨404, ⟨lit "{}", none⟩⟩ sampleResult
      (sampleDocument (lit "abc")) 5).Stats
      = { Requests := 1, Responses := 1, ResponsesByCode := [(404, 1)], Errors := 1,
          TotalLatency := 5, MinLatency := 5, MaxLatency := 5, BytesSent := 3,
          BytesRecv := 2 } ∧
    (resultWithResponse sampleLib ⟨404, ⟨lit "{}", none⟩⟩ sampleResult
      (sampleDocument (lit "abc")) 5).Stats.Responses = 1 :=
  ⟨by decide, (C19_response_stats sampleLib ⟨404, ⟨lit "{}", none⟩⟩ sampleResult
    (sampleDocument (lit "abc")) 5 rfl).1⟩

/-- C11: when `createRequest` fails, or when the transport picked by `leastBusyClient` returns
an error, `Send` returns the result with the document's Id, status TransportFailure, that
error as `Err`, `Requests` = 1, `Errors` = 1 and every other field at its zero value. -/
theorem C11_send_failure (lib : Lib) (c : Client) (start stop : Int) (document : Document)
    (err : GoError) :
    (createRequest lib c (feedURL lib c document (queryParams c)).1
        (lib.urlString (feedURL lib c document (queryParams c)).2) document.Body
        = Except.error err →
      (Send lib c start stop document).2 = some
        { Id := document.Id, Status := Status.StatusTransportFailure, HTTPStatus := 0,
          Message := [], Trace := [], Err := some err,
          Stats := { Requests := 1, Responses := 0, ResponsesByCode := [], Errors := 1,
                     TotalLatency := 0, MinLatency := 0, MaxLatency := 0, BytesSent := 0,
                     BytesRecv := 0 } }) ∧
    (∀ (req : Request) (c2 : Client) (leastBusy : countingHTTPClient),
      createRequest lib c (feedURL lib c document (queryParams c)).1
        (lib.urlString (feedURL lib c document (queryParams c)).2) document.Body
        = Except.ok req →
      leastBusyClient c = (c2, some leastBusy) →
      lib.transport leastBusy.client req (clientTimeout c2) = Except.error err →
      (Send lib c start stop document).2 = some
        { Id := document.Id, Status := Status.StatusTransportFailure, HTTPStatus := 0,
          Message := [], Trace := [], Err := some err,
          Stats := { Requests := 1, Responses := 0, ResponsesByCode := [], Errors := 1,
                     TotalLatency := 0, MinLatency := 0, MaxLatency := 0, BytesSent := 0,
                     BytesRecv := 0 } }) := by
  constructor
  · intro h
    simp only [Send, h]
    rfl
  · intro req c2 leastBusy h hlb htr
    simp only [Send, h, hlb, countingHTTPClient.Do, htr]
    rfl

/-- Witness of C11: every transport is down. -/
theorem C11_send_failure_witness :
    (Send sampleLibDown (sampleClient 0 CompressionAuto [⟨0, 0⟩] 0) 0 1
        (sampleDocument (lit "abc"))).2 = some
      { Id := (sampleDocument (lit "abc")).Id, Status := Status.StatusTransportFailure,
        HTTPStatus := 0, Message := [], Trace := [], Err := some (GoError.external 7),
        Stats := { Requests := 1, Responses := 0, ResponsesByCode := [], Errors := 1,
                   TotalLatency := 0, MinLatency := 0, MaxLatency := 0, BytesSent := 0,
                   BytesRecv := 0 } } :=
  (C11_send_failure sampleLibDown (sampleClient 0 CompressionAuto [⟨0, 0⟩] 0) 0 1
    (sampleDocument (lit "abc")) (GoError.external 7)).2 _ _ _ rfl rfl rfl

/-- C12: with `Result.Success` as the spec has it, when the request is built, a transport is
picked and it returns a 200 response whose body is read and decoded without error, `Send`
returns a result with status Success, `HTTPStatus` = 200, `Errors` = 0, `Requests` = 1 and
`Responses` = 1. -/
theorem C12_send_success (lib : Lib) (c : Client) (start stop : Int) (document : Document)
    (req : Request) (c2 : Client) (leastBusy : countingHTTPClient) (resp : Response)
    (hs : ∀ r, lib.success r = specSuccess r)
    (hreq : createRequest lib c (feedURL lib c document (queryParams c)).1
      (lib.urlString (feedURL lib c document (queryParams c)).2) document.Body
      = Except.ok req)
    (hlb : leastBusyClient c = (c2, some leastBusy))
    (htr : lib.transport leastBusy.client req (clientTimeout c2) = Except.ok resp)
    (hcode : resp.StatusCode = 200) (hread : resp.Body.readErr = none)
    (hdec : (lib.jsonUnmarshal resp.Body.data).2 = none) :
    ∃ r, (Send lib c start stop document).2 = some r ∧
      r.Status = Status.StatusSuccess ∧ r.HTTPStatus = 200 ∧ r.Stats.Errors = 0 ∧
      r.Stats.Requests = 1 ∧ r.Stats.Responses = 1 ∧ r.Id = document.Id ∧ r.Err = none := by
  have hsend : (Send lib c start stop document).2 = some
      (resultWithResponse lib resp
        { Id := document.Id, Status := Status.StatusSuccess, HTTPStatus := 0, Message := [],
          Trace := [], Err := none,
          Stats := { Requests := 1, Responses := 0, ResponsesByCode := [], Errors := 0,
                     TotalLatency := 0, MinLatency := 0, MaxLatency := 0, BytesSent := 0,
                     BytesRecv := 0 } }
        document (timeSub stop start)) := by
    simp only [Send, hreq, hlb, countingHTTPClient.Do, htr]
  refine ⟨_, hsend, ?_⟩
  simp only [resultWithResponse, hread, hdec, hcode, hs, specSuccess, statusOfCode]
  refine ⟨?_, ?_, ?_, ?_, ?_, ?_, ?_⟩ <;> trivial

/-- Witness of C12: the sample transport answers 200 with the body `{}`. -/
theorem C12_send_success_witness :
    ∃ r, (Send sampleLib (sampleClient 0 CompressionAuto [⟨0, 0⟩] 0) 0 1
        (sampleDocument (lit "abc"))).2 = some r ∧
      r.Status = Status.StatusSuccess ∧ r.HTTPStatus = 200 ∧ r.Stats.Errors = 0 ∧
      r.Stats.Requests = 1 ∧ r.Stats.Responses = 1 ∧ r.Id = (sampleDocument (lit "abc")).Id ∧
      r.Err = none :=
  C12_send_success sampleLib (sampleClient 0 CompressionAuto [⟨0, 0⟩] 0) 0 1
    (sampleDocument (lit "abc")) _ _ _ ⟨200, ⟨lit "{}", none⟩⟩ (fun _ => rfl) rfl rfl rfl rfl
    rfl (by decide)

/-! ## Request builder: method and query -/

/-- C14: `feedURL` returns POST for Put, PUT for Update and DELETE for Remove, whatever the
other fields of the document, the client and the parameters passed in. -/
theorem C14_feedURL_method (lib : Lib) (c : Client) (d : Document)
    (params : List (GoString × GoString)) :
    (d.Operation = Operation.OperationPut → (feedURL lib c d params).1 = "POST") ∧
    (d.Operation = Operation.OperationUpdate → (feedURL lib c d params).1 = "PUT") ∧
    (d.Operation = Operation.OperationRemove → (feedURL lib c d params).1 = "DELETE") := by
  refine ⟨?_, ?_, ?_⟩ <;> intro h <;> simp only [feedURL, h]

/-- Witness of C14: the sample document is a Put. -/
theorem C14_feedURL_method_witness :
    (feedURL sampleLib (sampleClient 0 CompressionAuto [⟨0, 0⟩] 0) (sampleDocument [])
      (queryParams (sampleClient 0 CompressionAuto [⟨0, 0⟩] 0))).1 = "POST" :=
  (C14_feedURL_method sampleLib (sampleClient 0 CompressionAuto [⟨0, 0⟩] 0) (sampleDocument [])
    (queryParams (sampleClient 0 CompressionAuto [⟨0, 0⟩] 0))).1 rfl

/-- After `Set`, the key holds the value given. -/
theorem valuesGet_set_self (ps : List (GoString × GoString)) (k v : GoString) :
    valuesGet (valuesSet ps k v) k = some v := by
  unfold valuesGet valuesSet
  have hnone : (ps.filter (fun p => decide (p.1 ≠ k))).find? (fun p => decide (p.1 = k))
      = none := by
    rw [List.find?_eq_none]
    intro p hp
    have := (List.mem_filter.mp hp).2
    simpa using this
  rw [List.find?_append, hnone]
  simp

/-- After `Set`, every other key holds what it held before. -/
theorem valuesGet_set_other (ps : List (GoString × GoString)) (k v k2 : GoString)
    (h : k2 ≠ k) : valuesGet (valuesSet ps k v) k2 = valuesGet ps k2 := by
  unfold valuesGet valuesSet
  congr 1
  induction ps with
  | nil =>
    have hk : ¬ k = k2 := fun e => h e.symm
    simp [hk]
  | cons p ps ih =>
    by_cases hp : p.1 = k
    · have hp2 : ¬ p.1 = k2 := fun e => h (e.symm.trans hp)
      rw [List.filter_cons_of_neg (by simpa using hp),
        List.find?_cons_of_neg _ (by simpa using hp2)]
      exact ih
    · rw [List.filter_cons_of_pos (by simpa using hp), List.cons_append]
      by_cases hp2 : p.1 = k2
      · rw [List.find?_cons_of_pos _ (by simpa using hp2),
          List.find?_cons_of_pos _ (by simpa using hp2)]
      · rw [List.find?_cons_of_neg _ (by simpa using hp2),
          List.find?_cons_of_neg _ (by simpa using hp2)]
        exact ih

/-- The keys after `Set` are the key set and the keys held before. -/
theorem mem_keys_set (ps : List (GoString × GoString)) (k v k2 : GoString) :
    k2 ∈ (valuesSet ps k v).map Prod.fst ↔ k2 = k ∨ k2 ∈ ps.map Prod.fst := by
  unfold valuesSet
  simp only [List.map_append, List.mem_append, List.mem_map, List.mem_filter, Prod.exists,
    List.map_cons, List.map_nil, List.mem_singleton]
  constructor
  · rintro (⟨a, b, ⟨hm, _⟩, rfl⟩ | h)
    · exact Or.inr ⟨a, b, hm, rfl⟩
    · exact Or.inl h
  · rintro (h | ⟨a, b, hm, rfl⟩)
    · exact Or.inr h
    · by_cases hk : a = k
      · exact Or.inr hk
      · exact Or.inl ⟨a, b, ⟨hm, by simpa using hk⟩, rfl⟩

/-- The method `Set` keeps every key at most once. -/
theorem nodup_keys_set (ps : List (GoString × GoString)) (k v : GoString)
    (h : (ps.map Prod.fst).Nodup) : ((valuesSet ps k v).map Prod.fst).Nodup := by
  unfold valuesSet
  rw [List.map_append, List.nodup_append]
  refine ⟨(h.sublist (List.Sublist.map _ (List.filter_sublist _))), by simp, ?_⟩
  intro a ha hb
  simp only [List.map_cons, List.map_nil, List.mem_singleton] at hb
  obtain ⟨p, hp, rfl⟩ := List.mem_map.mp ha
  have := (List.mem_filter.mp hp).2
  simp only [ne_eq, decide_not, Bool.not_eq_true', decide_eq_false_iff_not] at this
  exact this hb

/-- Five alternatives listed in the opposite order. -/
theorem or_five_reverse (a b c d e : Prop) : (e ∨ d ∨ c ∨ b ∨ a) ↔ (a ∨ b ∨ c ∨ d ∨ e) := by
  tauto

/-- A conditional `Set` keeps every key at most once. -/
theorem step_nodup (ps : List (GoString × GoString)) (k v : GoString) (p : Prop) [Decidable p]
    (h : (ps.map Prod.fst).Nodup) :
    ((if p then valuesSet ps k v else ps).map Prod.fst).Nodup := by
  split
  · exact nodup_keys_set ps k v h
  · exact h

/-- The keys after a conditional `Set`. -/
theorem step_mem (ps : List (GoString × GoString)) (k v : GoString) (p : Prop) [Decidable p]
    (k2 : GoString) :
    k2 ∈ (if p then valuesSet ps k v else ps).map Prod.fst ↔
      (k2 = k ∧ p) ∨ k2 ∈ ps.map Prod.fst := by
  split
  · rename_i hp
    rw [mem_keys_set]
    simp only [hp, and_true]
  · rename_i hp
    simp only [hp, and_false, false_or]

/-- A conditional `Set` whose condition holds stores the value. -/
theorem step_get_self (ps : List (GoString × GoString)) (k v : GoString) (p : Prop)
    [Decidable p] (hp : p) : valuesGet (if p then valuesSet ps k v else ps) k = some v := by
  rw [if_pos hp, valuesGet_set_self]

/-- A conditional `Set` leaves every other key as it was. -/
theorem step_get_other (ps : List (GoString × GoString)) (k v : GoString) (p : Prop)
    [Decidable p] (k2 : GoString) (h : k2 ≠ k) :
    valuesGet (if p then valuesSet ps k v else ps) k2 = valuesGet ps k2 := by
  split
  · exact valuesGet_set_other ps k v k2 h
  · rfl

/-- C13: the parameters that `queryParams` and `feedURL` hand to `url.Values.Encode` hold each
key at most once and hold exactly: `timeout` iff `Timeout` > 0, with the value `Timeout` in
whole milliseconds followed by `ms`; `route` iff `Route` is not empty; `tracelevel` iff
`TraceLevel` > 0; `condition` iff the document has a condition; `create` with the value `true`
iff the `Create` flag is set. When none of these holds there is no parameter, and the query
string is the encoding of no parameter, which is empty. -/
theorem C13_query_params (lib : Lib) (c : Client) (d : Document) :
    ∃ ps : List (GoString × GoString),
      (feedURL lib c d (queryParams c)).2.RawQuery = lib.valuesEncode ps ∧
      (ps.map Prod.fst).Nodup ∧
      (∀ k, k ∈ ps.map Prod.fst ↔
        (k = lit "timeout" ∧ c.options.Timeout > 0) ∨
        (k = lit "route" ∧ c.options.Route ≠ []) ∨
        (k = lit "tracelevel" ∧ c.options.TraceLevel > 0) ∨
        (k = lit "condition" ∧ d.Condition ≠ []) ∨
        (k = lit "create" ∧ d.Create = true)) ∧
      (c.options.Timeout > 0 → valuesGet ps (lit "timeout")
        = some (FormatInt (Int.tdiv c.options.Timeout 1000000) ++ lit "ms")) ∧
      (c.options.Route ≠ [] → valuesGet ps (lit "route") = some c.options.Route) ∧
      (c.options.TraceLevel > 0 → valuesGet ps (lit "tracelevel")
        = some (FormatInt c.options.TraceLevel)) ∧
      (d.Condition ≠ [] → valuesGet ps (lit "condition") = some d.Condition) ∧
      (d.Create = true → valuesGet ps (lit "create") = some (lit "true")) ∧
      (c.options.Timeout ≤ 0 → c.options.Route = [] → c.options.TraceLevel ≤ 0 →
        d.Condition = [] → d.Create = false →
        ps = [] ∧ (lib.valuesEncode [] = [] →
          (feedURL lib c d (queryParams c)).2.RawQuery = [])) := by
  have k12 : lit "timeout" ≠ lit "route" := by decide
  have k13 : lit "timeout" ≠ lit "tracelevel" := by decide
  have k14 : lit "timeout" ≠ lit "condition" := by decide
  have k15 : lit "timeout" ≠ lit "create" := by decide
  have k23 : lit "route" ≠ lit "tracelevel" := by decide
  have k24 : lit "route" ≠ lit "condition" := by decide
  have k25 : lit "route" ≠ lit "create" := by decide
  have k34 : lit "tracelevel" ≠ lit "condition" := by decide
  have k35 : lit "tracelevel" ≠ lit "create" := by decide
  have k45 : lit "condition" ≠ lit "create" := by decide
  obtain ⟨p1, hp1⟩ : ∃ p1, p1 = (if c.options.Timeout > 0 then
      valuesSet [] (lit "timeout")
        (FormatInt (Int.tdiv c.options.Timeout 1000000) ++ lit "ms")
      else []) := ⟨_, rfl⟩
  obtain ⟨p2, hp2⟩ : ∃ p2, p2 = (if c.options.Route ≠ [] then
      valuesSet p1 (lit "route") c.options.Route else p1) := ⟨_, rfl⟩
  obtain ⟨p3, hp3⟩ : ∃ p3, p3 = (if c.options.TraceLevel > 0 then
      valuesSet p2 (lit "tracelevel") (FormatInt c.options.TraceLevel) else p2) := ⟨_, rfl⟩
  obtain ⟨p4, hp4⟩ : ∃ p4, p4 = (if d.Condition ≠ [] then
      valuesSet p3 (lit "condition") d.Condition else p3) := ⟨_, rfl⟩
  obtain ⟨p5, hp5⟩ : ∃ p5, p5 = (if d.Create = true then
      valuesSet p4 (lit "create") (lit "true") else p4) := ⟨_, rfl⟩
  have hfeed : (feedURL lib c d (queryParams c)).2.RawQuery = lib.valuesEncode p5 := by
    subst hp5 hp4 hp3 hp2 hp1
    simp only [feedURL, queryParams, Millisecond]
  have n1 : (p1.map Prod.fst).Nodup := by
    rw [hp1]
    exact step_nodup _ _ _ _ List.nodup_nil
  have n2 : (p2.map Prod.fst).Nodup := by
    rw [hp2]
    exact step_nodup _ _ _ _ n1
  have n3 : (p3.map Prod.fst).Nodup := by
    rw [hp3]
    exact step_nodup _ _ _ _ n2
  have n4 : (p4.map Prod.fst).Nodup := by
    rw [hp4]
    exact step_nodup _ _ _ _ n3
  have n5 : (p5.map Prod.fst).Nodup := by
    rw [hp5]
    exact step_nodup _ _ _ _ n4
  have hmem : ∀ k, k ∈ p5.map Prod.fst ↔
      (k = lit "timeout" ∧ c.options.Timeout > 0) ∨ (k = lit "route" ∧ c.options.Route ≠ []) ∨
      (k = lit "tracelevel" ∧ c.options.TraceLevel > 0) ∨
      (k = lit "condition" ∧ d.Condition ≠ []) ∨ (k = lit "create" ∧ d.Create = true) := by
    intro k
    rw [hp5, step_mem, hp4, step_mem, hp3, step_mem, hp2, step_mem, hp1, step_mem]
    simp only [List.map_nil, List.not_mem_nil, or_false]
    exact or_five_reverse _ _ _ _ _
  have g1 : c.options.Timeout > 0 → valuesGet p5 (lit "timeout")
      = some (FormatInt (Int.tdiv c.options.Timeout 1000000) ++ lit "ms") := by
    intro h
    rw [hp5, step_get_other _ _ _ _ _ k15, hp4, step_get_other _ _ _ _ _ k14, hp3,
      step_get_other _ _ _ _ _ k13, hp2, step_get_other _ _ _ _ _ k12, hp1,
      step_get_self _ _ _ _ h]
  have g2 : c.options.Route ≠ [] → valuesGet p5 (lit "route") = some c.options.Route := by
    intro h
    rw [hp5, step_get_other _ _ _ _ _ k25, hp4, step_get_other _ _ _ _ _ k24, hp3,
      step_get_other _ _ _ _ _ k23, hp2, step_get_self _ _ _ _ h]
  have g3 : c.options.TraceLevel > 0 → valuesGet p5 (lit "tracelevel")
      = some (FormatInt c.options.TraceLevel) := by
    intro h
    rw [hp5, step_get_other _ _ _ _ _ k35, hp4, step_get_other _ _ _ _ _ k34, hp3,
      step_get_self _ _ _ _ h]
  have g4 : d.Condition ≠ [] → valuesGet p5 (lit "condition") = some d.Condition := by
    intro h
    rw [hp5, step_get_other _ _ _ _ _ k45, hp4, step_get_self _ _ _ _ h]
  have g5 : d.Create = true → valuesGet p5 (lit "create") = some (lit "true") := by
    intro h
    rw [hp5, step_get_self _ _ _ _ h]
  refine ⟨p5, hfeed, n5, hmem, g1, g2, g3, g4, g5, ?_⟩
  intro hT hR hL hC hCr
  have hnil : p5 = [] := by
    rw [hp5, if_neg (by simp [hCr]), hp4, if_neg (by simp [hC]), hp3, if_neg (by omega), hp2,
      if_neg (by simp [hR]), hp1, if_neg (by omega)]
  refine ⟨hnil, fun he => ?_⟩
  rw [hfeed, hnil, he]

/-- Witness of C13: a client with a timeout of 2.5 s sends `timeout=2500ms` for the sample
document. -/
theorem C13_query_params_witness :
    ∃ ps : List (GoString × GoString),
      (feedURL sampleLib (sampleClient 2500000000 CompressionAuto [⟨0, 0⟩] 0)
        (sampleDocument [])
        (queryParams (sampleClient 2500000000 CompressionAuto [⟨0, 0⟩] 0))).2.RawQuery
        = sampleLib.valuesEncode ps ∧
      valuesGet ps (lit "timeout") = some (lit "2500ms") := by
  obtain ⟨ps, h1, _, _, h4, _⟩ := C13_query_params sampleLib
    (sampleClient 2500000000 CompressionAuto [⟨0, 0⟩] 0) (sampleDocument [])
  exact ⟨ps, h1, (h4 (by decide)).trans (by decide)⟩

/-! ## Construction -/

/-- The loop of `NewClient` wraps the transports one by one, in order. -/
theorem countingClients_eq (ts : List Nat) : ∀ acc : List countingHTTPClient,
    ts.foldl (fun acc client => acc ++ [{ client := client, inflight := 0 }]) acc
      = acc ++ ts.map (fun t => { client := t, inflight := 0 }) := by
  induction ts with
  | nil => intro acc; simp
  | cons t ts ih =>
    intro acc
    simp only [List.foldl_cons, ih, List.map_cons, List.append_assoc, List.singleton_append]

/-- C15: `NewClient` returns an error and no client when no transport is supplied, whatever
the options; it succeeds exactly when at least one transport is supplied and the base URL
parses; and a client it returns has one pool entry per transport supplied, in the same order,
each with the inflight counter 0, a pool of at least one entry, and the rotation counter 0. -/
theorem C15_newClient (lib : Lib) (options : ClientOptions) (httpClients : List Nat) :
    (httpClients = [] → NewClient lib options httpClients
      = Except.error (GoError.errorf "need at least one HTTP client")) ∧
    ((∃ c, NewClient lib options httpClients = Except.ok c) ↔
      (httpClients ≠ [] ∧ ∃ u, lib.urlParse options.BaseURL = Except.ok u)) ∧
    (∀ c, NewClient lib options httpClients = Except.ok c →
      c.httpClients = httpClients.map (fun t => { client := t, inflight := 0 }) ∧
      c.httpClients.length = httpClients.length ∧ 1 ≤ c.httpClients.length ∧
      (∀ e ∈ c.httpClients, e.inflight = 0) ∧ c.sendCount = 0 ∧ c.options = options ∧
      lib.urlParse options.BaseURL = Except.ok c.baseURL) := by
  refine ⟨?_, ?_, ?_⟩
  · intro h
    subst h
    rfl
  · constructor
    · rintro ⟨c, h⟩
      unfold NewClient at h
      split at h
      · cases h
      · rename_i hlen
        split at h
        · cases h
        · rename_i u hu
          refine ⟨?_, u, hu⟩
          intro hnil
          subst hnil
          simp at hlen
    · rintro ⟨hne, u, hu⟩
      have hlen : ¬ httpClients.length < 1 := by
        have := List.length_pos.mpr hne
        omega
      unfold NewClient
      rw [if_neg hlen]
      simp only [hu]
      exact ⟨_, rfl⟩
  · intro c h
    unfold NewClient at h
    split at h
    · cases h
    · rename_i hlen
      split at h
      · cases h
      · rename_i u hu
        simp only [Except.ok.injEq] at h
        subst h
        rw [countingClients_eq, List.nil_append]
        refine ⟨rfl, List.length_map _ _, ?_, ?_, rfl, rfl, hu⟩
        · rw [List.length_map]
          omega
        · intro e he
          obtain ⟨t, _, rfl⟩ := List.mem_map.mp he
          rfl

/-- Witness of C15: two transports give a pool of two idle entries, none gives an error. -/
theorem C15_newClient_witness :
    NewClient sampleLib (sampleClient 0 CompressionAuto [] 0).options []
      = Except.error (GoError.errorf "need at least one HTTP client") ∧
    ∃ c, NewClient sampleLib (sampleClient 0 CompressionAuto [] 0).options [7, 8]
        = Except.ok c ∧ c.httpClients = [⟨7, 0⟩, ⟨8, 0⟩] ∧ c.sendCount = 0 := by
  have h0 := (C15_newClient sampleLib (sampleClient 0 CompressionAuto [] 0).options []).1 rfl
  have h := C15_newClient sampleLib (sampleClient 0 CompressionAuto [] 0).options [7, 8]
  obtain ⟨c, hc⟩ := h.2.1.mpr ⟨by decide, _, rfl⟩
  have hp := h.2.2 c hc
  exact ⟨h0, c, hc, hp.1, hp.2.2.2.2.1⟩

/-! ## Timeout policy: the deadline and the server-side timeout -/

/-- Up to the largest `Timeout` whose eleven-fold fits an `int64`, the deadline of
`clientTimeout` is `Timeout * 11 / 10 + 1000` nanoseconds and exceeds `Timeout`. -/
theorem clientTimeout_gt (c : Client) (h1 : 0 < c.options.Timeout)
    (h2 : c.options.Timeout ≤ 838488366986797800) :
    clientTimeout c = c.options.Timeout * 11 / 10 + 1000 ∧
      c.options.Timeout < clientTimeout c := by
  have hw : wrapInt64 (c.options.Timeout * 11) = c.options.Timeout * 11 := by
    unfold wrapInt64
    omega
  have hd : Int.tdiv (c.options.Timeout * 11) 10 = c.options.Timeout * 11 / 10 :=
    Int.tdiv_eq_ediv (by omega) (by omega)
  have hw2 : wrapInt64 (c.options.Timeout * 11 / 10 + 1000)
      = c.options.Timeout * 11 / 10 + 1000 := by
    unfold wrapInt64
    omega
  have he : clientTimeout c = c.options.Timeout * 11 / 10 + 1000 := by
    unfold clientTimeout
    rw [if_neg (by omega), hw, hd, hw2]
  refine ⟨he, ?_⟩
  rw [he]
  omega

/-- C16: with `Timeout` = 9223372036854775807 ns, the largest `time.Duration`, the product
`Timeout * 11` wraps and the deadline returned is 922337203685478579 ns, below `Timeout`; with
`Timeout` = 838488366986797801 ns, the first value whose product wraps, the deadline is
negative; one nanosecond less and the deadline still exceeds `Timeout`. -/
theorem C16_clientTimeout_overflow :
    clientTimeout (sampleClient 9223372036854775807 CompressionAuto [⟨0, 0⟩] 0)
      = 922337203685478579 ∧
    clientTimeout (sampleClient 9223372036854775807 CompressionAuto [⟨0, 0⟩] 0)
      < 9223372036854775807 ∧
    clientTimeout (sampleClient 838488366986797801 CompressionAuto [⟨0, 0⟩] 0)
      = -922337203685476580 ∧
    clientTimeout (sampleClient 838488366986797800 CompressionAuto [⟨0, 0⟩] 0)
      = 922337203685478580 := by
  decide

/-! ## Request builder: the number segment -/

/-- The bytes of `FormatUint` are decimal digits, and read as a decimal number they give the
number formatted. -/
theorem FormatUint_decimal (n : Nat) (hn : n < 2 ^ 64) :
    (∀ b ∈ FormatUint n, 48 ≤ b.val ∧ b.val ≤ 57) ∧
    Nat.ofDigits 10 ((FormatUint n).reverse.map (fun b => b.val - 48)) = n := by
  constructor
  · intro b hb
    have hm : b.val ∈ (FormatUint n).map Fin.val := List.mem_map_of_mem _ hb
    rw [FormatUint_toNat] at hm
    obtain ⟨d, hd, hbd⟩ := List.mem_map.mp hm
    have := revDigits_lt 20 n d (List.mem_reverse.mp hd)
    omega
  · have h1 : (FormatUint n).reverse.map (fun b => b.val - 48)
        = ((FormatUint n).map Fin.val).reverse.map (fun v => v - 48) := by
      rw [List.map_reverse, List.map_reverse, List.map_map]
      rfl
    rw [h1, FormatUint_toNat, ← List.map_reverse, List.reverse_reverse, List.map_map]
    have h2 : (revDigits 20 n).map ((fun v => v - 48) ∘ (fun d => 48 + d)) = revDigits 20 n := by
      conv_rhs => rw [← List.map_id (revDigits 20 n)]
      apply List.map_congr_left
      intro d _
      simp
    rw [h2]
    exact revDigits_ofDigits 20 n (lt_trans hn (by norm_num))

/-- C20: for an Id whose numeric key is the signed 64-bit integer `n`, the path is the
`number` form with the segment `FormatUint` of `n` taken modulo 2^64: the key itself when
`n` is not negative, `n + 2^64` when it is, so `-1` is written 18446744073709551615; the
segment consists of decimal digits only, which read back give that unsigned number, and holds
no minus sign. -/
theorem C20_number_segment_unsigned (id : Id) (n : Int) (h : id.Number = some n)
    (hlo : -(2 ^ 63) ≤ n) (hhi : n < 2 ^ 63) :
    urlPath id = lit "/document/v1/" ++ PathEscape id.Namespace ++ lit "/"
      ++ PathEscape id.Type_ ++ lit "/number/" ++ FormatUint (n % 2 ^ 64).toNat ++ lit "/"
      ++ PathEscape id.UserSpecific ∧
    (0 ≤ n → FormatUint (n % 2 ^ 64).toNat = FormatUint n.toNat) ∧
    (n < 0 → FormatUint (n % 2 ^ 64).toNat = FormatUint (n + 2 ^ 64).toNat) ∧
    (n = -1 → FormatUint (n % 2 ^ 64).toNat = lit "18446744073709551615") ∧
    (45 : Byte) ∉ FormatUint (n % 2 ^ 64).toNat ∧
    (∀ b ∈ FormatUint (n % 2 ^ 64).toNat, 48 ≤ b.val ∧ b.val ≤ 57) ∧
    Nat.ofDigits 10 ((FormatUint (n % 2 ^ 64).toNat).reverse.map (fun b => b.val - 48))
      = (n % 2 ^ 64).toNat := by
  have hb : (n % 2 ^ 64).toNat < 2 ^ 64 := by omega
  have hdec := FormatUint_decimal (n % 2 ^ 64).toNat hb
  refine ⟨?_, ?_, ?_, ?_, ?_, hdec.1, hdec.2⟩
  · simp only [urlPath, h, List.nil_append, List.append_assoc]
  · intro h0
    have : (n % 2 ^ 64).toNat = n.toNat := by omega
    rw [this]
  · intro h0
    have : (n % 2 ^ 64).toNat = (n + 2 ^ 64).toNat := by omega
    rw [this]
  · intro h1
    subst h1
    decide
  · intro hm
    have := (hdec.1 _ hm).1
    revert this
    decide

/-- Witness of C20: the numeric key -1. -/
theorem C20_number_segment_unsigned_witness :
    urlPath ⟨lit "t", lit "ns", some (-1), [], lit "u"⟩
      = lit "/document/v1/ns/t/number/18446744073709551615/u" := by
  have h := C20_number_segment_unsigned ⟨lit "t", lit "ns", some (-1), [], lit "u"⟩ (-1) rfl
    (by decide) (by decide)
  rw [h.1, h.2.2.2.1 rfl]
  decide

/-! ## Load balancer: the scan -/

/-- C18: with three transports and the rotation counter at 2147483647, the increment wraps to
-2147483648, the start offset is -2 and the call panics on the first index; the previous
start offset was 1, so the next one should have been 2. With two transports the call after
that one has the start offset -1 and panics as well. -/
theorem C18_rotation_wrap_panics :
    wrapInt32 (2147483647 + 1) = -2147483648 ∧
    Int.tmod (wrapInt32 (2147483646 + 1)) 3 = 1 ∧
    Int.tmod (wrapInt32 (2147483647 + 1)) 3 = -2 ∧
    (leastBusyClient (sampleClient 0 CompressionAuto [⟨0, 0⟩, ⟨1, 0⟩, ⟨2, 0⟩] 2147483647)).2
      = none ∧
    Int.tmod (wrapInt32 (-2147483648 + 1)) 2 = -1 ∧
    (leastBusyClient (sampleClient 0 CompressionAuto [⟨0, 0⟩, ⟨1, 0⟩] (-2147483648))).2
      = none := by
  decide

/-- One step of the scan with a start offset that is not negative: the index is inside the
pool, and the entry read replaces the current one exactly when its counter is lower. -/
theorem leastBusyScan_step (pool : List countingHTTPClient) (s : Nat) (hpool : pool ≠ [])
    (i : Nat) (rest : List Nat) (leastBusy : countingHTTPClient) (min : Int) :
    ∃ e, pool[(i + s) % pool.length]? = some e ∧
      leastBusyScan pool (s : Int) (i :: rest) leastBusy min
        = if e.inflight < min then leastBusyScan pool (s : Int) rest e e.inflight
          else leastBusyScan pool (s : Int) rest leastBusy min := by
  have hlen : 0 < pool.length := List.length_pos.mpr hpool
  have hidx : (i + s) % pool.length < pool.length := Nat.mod_lt _ hlen
  have hj : Int.tmod ((i : Int) + (s : Int)) (pool.length : Int)
      = (((i + s) % pool.length : Nat) : Int) := by
    rw [Int.ofNat_tmod]
    push_cast
    rfl
  refine ⟨pool[(i + s) % pool.length], List.getElem?_eq_getElem hidx, ?_⟩
  simp only [leastBusyScan]
  rw [hj, if_neg (by omega)]
  simp only [Int.toNat_ofNat]
  rw [List.getElem?_eq_getElem hidx]

/-- The scan with a start offset that is not negative never panics. It returns the entry it
started with when no entry visited is below the minimum it started with; otherwise it returns
the first entry visited whose counter is the least of all entries visited. -/
theorem leastBusyScan_spec (pool : List countingHTTPClient) (s : Nat) (hpool : pool ≠ []) :
    ∀ (is : List Nat) (leastBusy : countingHTTPClient) (min : Int),
      ∃ r, leastBusyScan pool (s : Int) is leastBusy min = some r ∧
        ((r = leastBusy ∧
            ∀ i ∈ is, ∀ e, pool[(i + s) % pool.length]? = some e → min ≤ e.inflight) ∨
          (∃ k i : Nat, is[k]? = some i ∧ pool[(i + s) % pool.length]? = some r ∧
            r.inflight < min ∧
            (∀ i2 ∈ is, ∀ e, pool[(i2 + s) % pool.length]? = some e →
              r.inflight ≤ e.inflight) ∧
            (∀ k2 i2 : Nat, k2 < k → is[k2]? = some i2 →
              ∀ e, pool[(i2 + s) % pool.length]? = some e → r.inflight < e.inflight))) := by
  intro is
  induction is with
  | nil =>
    intro leastBusy min
    exact ⟨leastBusy, rfl, Or.inl ⟨rfl, fun i hi => absurd hi (List.not_mem_nil i)⟩⟩
  | cons i rest ih =>
    intro leastBusy min
    obtain ⟨e, he, hstep⟩ := leastBusyScan_step pool s hpool i rest leastBusy min
    rw [hstep]
    by_cases hlt : e.inflight < min
    · rw [if_pos hlt]
      obtain ⟨r, hr, hcase⟩ := ih e e.inflight
      refine ⟨r, hr, Or.inr ?_⟩
      rcases hcase with ⟨hre, hall⟩ | ⟨k, i1, hk, hE, hlt1, hall, hfirst⟩
      · subst hre
        refine ⟨0, i, List.getElem?_cons_zero, he, hlt, ?_, ?_⟩
        · intro i2 hi2 e2 he2
          rcases List.mem_cons.mp hi2 with h | h
          · subst h
            rw [he] at he2
            cases he2
            exact le_refl _
          · exact hall i2 h e2 he2
        · intro k2 i2 hk2
          omega
      · refine ⟨k + 1, i1, by simpa using hk, hE, lt_trans hlt1 hlt, ?_, ?_⟩
        · intro i2 hi2 e2 he2
          rcases List.mem_cons.mp hi2 with h | h
          · subst h
            rw [he] at he2
            cases he2
            exact le_of_lt hlt1
          · exact hall i2 h e2 he2
        · intro k2 i2 hk2 hget e2 he2
          cases k2 with
          | zero =>
            simp only [List.getElem?_cons_zero, Option.some.injEq] at hget
            subst hget
            rw [he] at he2
            cases he2
            exact hlt1
          | succ k3 =>
            simp only [List.getElem?_cons_succ] at hget
            exact hfirst k3 i2 (by omega) hget e2 he2
    · rw [if_neg hlt]
      obtain ⟨r, hr, hcase⟩ := ih leastBusy min
      refine ⟨r, hr, ?_⟩
      rcases hcase with ⟨hrl, hall⟩ | ⟨k, i1, hk, hE, hlt1, hall, hfirst⟩
      · refine Or.inl ⟨hrl, ?_⟩
        intro i2 hi2 e2 he2
        rcases List.mem_cons.mp hi2 with h | h
        · subst h
          rw [he] at he2
          cases he2
          exact not_lt.mp hlt
        · exact hall i2 h e2 he2
      · refine Or.inr ⟨k + 1, i1, by simpa using hk, hE, hlt1, ?_, ?_⟩
        · intro i2 hi2 e2 he2
          rcases List.mem_cons.mp hi2 with h | h
          · subst h
            rw [he] at he2
            cases he2
            exact le_of_lt (lt_of_lt_of_le hlt1 (not_lt.mp hlt))
          · exact hall i2 h e2 he2
        · intro k2 i2 hk2 hget e2 he2
          cases k2 with
          | zero =>
            simp only [List.getElem?_cons_zero, Option.some.injEq] at hget
            subst hget
            rw [he] at he2
            cases he2
            exact lt_of_lt_of_le hlt1 (not_lt.mp hlt)
          | succ k3 =>
            simp only [List.getElem?_cons_succ] at hget
            exact hfirst k3 i2 (by omega) hget e2 he2

/-- A scan of `n` steps from a start offset inside the pool visits every index. -/
theorem rotation_surj (n s j : Nat) (hs : s < n) (hj : j < n) :
    ∃ i, i < n ∧ (i + s) % n = j := by
  by_cases h : s ≤ j
  · exact ⟨j - s, by omega, by rw [Nat.sub_add_cancel h]; exact Nat.mod_eq_of_lt hj⟩
  · refine ⟨j + n - s, by omega, ?_⟩
    have : j + n - s + s = j + n := by omega
    rw [this, Nat.add_mod_right]
    exact Nat.mod_eq_of_lt hj

/-- Go's truncating `%` agrees with the mathematical modulo whenever its result is not
negative. -/
theorem tmod_eq_emod_of_nonneg (a : Int) (n : Nat) (h : 0 ≤ Int.tmod a n) :
    Int.tmod a n = a % n := by
  rcases a with m | m
  · rfl
  · have h1 : Int.tmod (Int.negSucc m) (n : Int) = -(((m + 1) % n : Nat) : Int) := rfl
    rw [h1] at h ⊢
    have h2 : ((m + 1) % n : Nat) = 0 := by omega
    rw [h2]
    have hd : (n : Int) ∣ Int.negSucc m := by
      obtain ⟨q, hq⟩ := Nat.dvd_of_mod_eq_zero h2
      refine ⟨-(q : Int), ?_⟩
      rw [Int.negSucc_eq]
      have hc : ((m : Int) + 1) = (n : Int) * q := by exact_mod_cast hq
      rw [hc]
      ring
    rw [Int.emod_eq_zero_of_dvd hd]
    rfl

/-- With a start offset that is not negative, `leastBusyClient` returns the value the scan
ends with, one added to its counter, and the scan runs over all indices from the start
offset, which is the incremented counter modulo the pool size. -/
theorem leastBusyClient_scan (c : Client)
    (hstart : 0 ≤ Int.tmod (wrapInt32 (c.sendCount + 1)) (c.httpClients.length : Int))
    (first r : countingHTTPClient) (hfirst : c.httpClients[0]? = some first)
    (hr : leastBusyScan c.httpClients
      (((wrapInt32 (c.sendCount + 1) % (c.httpClients.length : Int)).toNat : Nat) : Int)
      (List.range c.httpClients.length) first MaxInt64 = some r) :
    (leastBusyClient c).2 = some (r.addInflight 1) := by
  have he := tmod_eq_emod_of_nonneg _ _ hstart
  have hcast : Int.tmod (wrapInt32 (c.sendCount + 1)) (c.httpClients.length : Int)
      = (((wrapInt32 (c.sendCount + 1) % (c.httpClients.length : Int)).toNat : Nat) : Int) := by
    rw [Int.toNat_of_nonneg (he ▸ hstart), he]
  unfold leastBusyClient
  rw [hfirst]
  simp only [hcast, hr]

/-- Whenever the start offset computed by `leastBusyClient` is not negative (every counter
that has not wrapped, and the wrapped ones that are multiples of the pool size) and some
counter is below `math.MaxInt64` (every counter a client can reach is 0), the value returned
is a copy of a pool entry whose counter is less than or equal to that of every pool entry and
which is the first such entry in scan order, the scan visiting the indices `(i + start) % N`
for `i = 0..N-1` with `start` the incremented counter modulo `N`. -/
theorem leastBusyClient_first_min (c : Client) (hpool : c.httpClients ≠ [])
    (hstart : 0 ≤ Int.tmod (wrapInt32 (c.sendCount + 1)) (c.httpClients.length : Int))
    (hsome : ∃ x ∈ c.httpClients, x.inflight < MaxInt64) :
    ∃ (i : Nat) (e : countingHTTPClient), i < c.httpClients.length ∧
      c.httpClients[(i + (wrapInt32 (c.sendCount + 1) % (c.httpClients.length : Int)).toNat)
        % c.httpClients.length]? = some e ∧
      (leastBusyClient c).2 = some (e.addInflight 1) ∧
      (∀ x ∈ c.httpClients, e.inflight ≤ x.inflight) ∧
      (∀ (i2 : Nat) (e2 : countingHTTPClient), i2 < i →
        c.httpClients[(i2 + (wrapInt32 (c.sendCount + 1) % (c.httpClients.length : Int)).toNat)
          % c.httpClients.length]? = some e2 → e.inflight < e2.inflight) := by
  have hlen : 0 < c.httpClients.length := List.length_pos.mpr hpool
  have hs : (wrapInt32 (c.sendCount + 1) % (c.httpClients.length : Int)).toNat
      < c.httpClients.length := by
    have h1 := Int.emod_lt_of_pos (wrapInt32 (c.sendCount + 1))
      (show (0 : Int) < (c.httpClients.length : Int) by omega)
    have h2 := Int.emod_nonneg (wrapInt32 (c.sendCount + 1))
      (show (c.httpClients.length : Int) ≠ 0 by omega)
    omega
  have hfirst : c.httpClients[0]? = some c.httpClients[0] := List.getElem?_eq_getElem hlen
  obtain ⟨r, hr, hcase⟩ := leastBusyScan_spec c.httpClients
    (wrapInt32 (c.sendCount + 1) % (c.httpClients.length : Int)).toNat hpool
    (List.range c.httpClients.length) c.httpClients[0] MaxInt64
  have hres := leastBusyClient_scan c hstart _ r hfirst hr
  have hvisit : ∀ x ∈ c.httpClients, ∃ i2, i2 ∈ List.range c.httpClients.length ∧
      c.httpClients[(i2 + (wrapInt32 (c.sendCount + 1) % (c.httpClients.length : Int)).toNat)
        % c.httpClients.length]? = some x := by
    intro x hx
    obtain ⟨j, hj, hjx⟩ := List.getElem_of_mem hx
    obtain ⟨i2, hi2, hmod⟩ := rotation_surj _ _ j hs hj
    refine ⟨i2, List.mem_range.mpr hi2, ?_⟩
    rw [hmod, List.getElem?_eq_getElem hj, hjx]
  obtain ⟨x, hx, hxlt⟩ := hsome
  rcases hcase with ⟨_, hall⟩ | ⟨k, i, hk, hE, _, hall, hfirstmin⟩
  · obtain ⟨i2, hi2, hget⟩ := hvisit x hx
    exact absurd hxlt (not_lt.mpr (hall i2 hi2 x hget))
  · obtain ⟨hk2, hki⟩ := List.getElem?_eq_some.mp hk
    rw [List.getElem_range] at hki
    subst hki
    have hkN : k < c.httpClients.length := by simpa using hk2
    refine ⟨k, r, hkN, hE, hres, ?_, ?_⟩
    · intro y hy
      obtain ⟨i2, hi2, hget⟩ := hvisit y hy
      exact hall i2 hi2 y hget
    · intro i2 e2 hi2 hget
      exact hfirstmin i2 i2 hi2 (List.getElem?_range (by omega)) e2 hget

/-- An instance of `leastBusyClient_first_min`: counters 5, 3, 3 and the rotation counter 0,
so the scan starts at index 1 and returns the entry there. -/
theorem leastBusyClient_first_min_example :
    ∃ (i : Nat) (e : countingHTTPClient), i < 3 ∧
      (leastBusyClient (sampleClient 0 CompressionAuto [⟨0, 5⟩, ⟨1, 3⟩, ⟨2, 3⟩] 0)).2
        = some (e.addInflight 1) ∧
      (∀ x ∈ [(⟨0, 5⟩ : countingHTTPClient), ⟨1, 3⟩, ⟨2, 3⟩], e.inflight ≤ x.inflight) := by
  obtain ⟨i, e, hi, _, hsel, hmin, _⟩ :=
    leastBusyClient_first_min (sampleClient 0 CompressionAuto [⟨0, 5⟩, ⟨1, 3⟩, ⟨2, 3⟩] 0)
      (by decide) (by decide) ⟨⟨1, 3⟩, by decide, by decide⟩
  exact ⟨i, e, hi, hsel, hmin⟩

/-- C17: a client built with three transports reaches the rotation counter 2147483647 after
as many calls, all counters still 0. On the next call the claim has the scan start at the
incremented counter modulo 3, which is 1, and select the entry at index 1; the code computes
the start offset -2 from the wrapped counter, panics on the first index and selects no
transport at all. -/
theorem C17_selection_panics_after_wrap :
    afterRun 2147483647 (sampleClient 0 CompressionAuto [⟨0, 0⟩, ⟨1, 0⟩, ⟨2, 0⟩] 0)
      = sampleClient 0 CompressionAuto [⟨0, 0⟩, ⟨1, 0⟩, ⟨2, 0⟩] 2147483647 ∧
    wrapInt32 (2147483647 + 1) % 3 = 1 ∧
    Int.tmod (wrapInt32 (2147483647 + 1)) 3 = -2 ∧
    (leastBusyClient (sampleClient 0 CompressionAuto [⟨0, 0⟩, ⟨1, 0⟩, ⟨2, 0⟩] 2147483647)).2
      = none ∧
    ¬ ∃ e : countingHTTPClient,
      (leastBusyClient (sampleClient 0 CompressionAuto [⟨0, 0⟩, ⟨1, 0⟩, ⟨2, 0⟩] 2147483647)).2
        = some (e.addInflight 1) := by
  have hpool : (sampleClient 0 CompressionAuto [⟨0, 0⟩, ⟨1, 0⟩, ⟨2, 0⟩] 0).httpClients ≠ [] := by
    decide
  have hv : ∀ e ∈ (sampleClient 0 CompressionAuto [⟨0, 0⟩, ⟨1, 0⟩, ⟨2, 0⟩] 0).httpClients,
      e.inflight = 0 := by decide
  have hvlt : (0 : Int) < MaxInt64 := by decide
  have hs : (0 : Int) ≤ (sampleClient 0 CompressionAuto [⟨0, 0⟩, ⟨1, 0⟩, ⟨2, 0⟩] 0).sendCount := by
    decide
  have hk : (sampleClient 0 CompressionAuto [⟨0, 0⟩, ⟨1, 0⟩, ⟨2, 0⟩] 0).sendCount
      + ((2147483647 : Nat) : Int) < 2 ^ 31 := by decide
  have hstate : afterRun 2147483647 (sampleClient 0 CompressionAuto [⟨0, 0⟩, ⟨1, 0⟩, ⟨2, 0⟩] 0)
      = sampleClient 0 CompressionAuto [⟨0, 0⟩, ⟨1, 0⟩, ⟨2, 0⟩] 2147483647 := by
    rw [afterRun_equal 0 2147483647 _ hpool hv hvlt hs hk]
    rfl
  have hnone : (leastBusyClient
      (sampleClient 0 CompressionAuto [⟨0, 0⟩, ⟨1, 0⟩, ⟨2, 0⟩] 2147483647)).2 = none := by
    decide
  refine ⟨hstate, by decide, by decide, hnone, ?_⟩
  rintro ⟨e, he⟩
  rw [hnone] at he
  cases he

end document
